import Mathlib

/-!
A shallow embedding of `Stop_watch.c`.

The firmware keeps all of its state in `volatile uint8_t` globals and in the
I/O registers of the microcontroller.  Every global and every register the
program writes becomes a field of `State`; every C function and interrupt
handler becomes a function `State → State`.  Bytes are natural numbers, and
the places where the C arithmetic can leave the range of a byte (`x++`) are
reduced modulo 256 explicitly.  The input register `PINB` is an argument of
the one function that reads it.
-/

namespace StopWatch

/-! ## Pin numbers -/

/-- Modelled from the spec: the pin-number macros of `avr/io.h` are not part of
the repository; pin `Pxn` is bit `n` of port `x`.  `PB7` is the count-mode
button. -/
abbrev PB7 : Nat := 7
/-- Modelled from the spec: pin macro of `avr/io.h`; seconds increment button. -/
abbrev PB6 : Nat := 6
/-- Modelled from the spec: pin macro of `avr/io.h`; seconds decrement button. -/
abbrev PB5 : Nat := 5
/-- Modelled from the spec: pin macro of `avr/io.h`; minutes increment button. -/
abbrev PB4 : Nat := 4
/-- Modelled from the spec: pin macro of `avr/io.h`; minutes decrement button. -/
abbrev PB3 : Nat := 3
/-- Modelled from the spec: pin macro of `avr/io.h`; resume button (INT2). -/
abbrev PB2 : Nat := 2
/-- Modelled from the spec: pin macro of `avr/io.h`; hours increment button. -/
abbrev PB1 : Nat := 1
/-- Modelled from the spec: pin macro of `avr/io.h`; hours decrement button. -/
abbrev PB0 : Nat := 0
/-- Modelled from the spec: pin macro of `avr/io.h`; reset button (INT0). -/
abbrev PD2 : Nat := 2
/-- Modelled from the spec: pin macro of `avr/io.h`; pause button (INT1). -/
abbrev PD3 : Nat := 3
/-- Source line 19: `#define RED_LED PD4`. -/
abbrev RED_LED : Nat := 4
/-- Source line 20: `#define YELLOW_LED PD5`. -/
abbrev YELLOW_LED : Nat := 5
/-- Source line 25: `#define BUZZER_PIN PD0`. -/
abbrev BUZZER_PIN : Nat := 0

/-! ## State -/

/-- The globals of `Stop_watch.c` (lines 41-58) and the output registers the
program writes.  `LED_PORT`, `BUZZER_PORT` and `BUTTON_PORT` are all `PORTD`,
`ENABLE_PORT` is `PORTA`, `SEGMENT_PORT` is `PORTC`, `BUTTON_PORTB` is `PORTB`.
`display_digits` is the array `uint8_t[6]`. -/
structure State where
  stopwatch_mode : Nat
  current_display : Nat
  display_digits : List Nat
  seconds : Nat
  minutes : Nat
  hours : Nat
  paused : Nat
  countdown_started : Nat
  timer1_interrupt_flag : Nat
  button_toggle_pressed : Nat
  buzzer_triggered : Nat
  buzzer_time : Nat
  hours_inc_pressed : Nat
  hours_dec_pressed : Nat
  minutes_inc_pressed : Nat
  minutes_dec_pressed : Nat
  seconds_inc_pressed : Nat
  seconds_dec_pressed : Nat
  PORTA : Nat
  PORTB : Nat
  PORTC : Nat
  PORTD : Nat
  deriving DecidableEq, Repr

/-- The statement `port |= (1 << pin)` on an 8-bit register. -/
def setBit (port pin : Nat) : Nat := port ||| (1 <<< pin)

/-- The statement `port &= ~(1 << pin)` on an 8-bit register. -/
def clearBit (port pin : Nat) : Nat := port &&& (0xFF ^^^ (1 <<< pin))

/-- The expression `pins & (1 << pin)`: the read of one line of an input
register. -/
def readPin (pins pin : Nat) : Nat := pins &&& (1 <<< pin)

/-- The statement `x++` on a `uint8_t`. -/
def incr8 (x : Nat) : Nat := (x + 1) % 256

/-- The static initialisers of the globals (lines 41-58), with the registers
at their power-on value 0. -/
def powerOn : State :=
  { stopwatch_mode := 0, current_display := 0, display_digits := [0, 0, 0, 0, 0, 0],
    seconds := 0, minutes := 0, hours := 0, paused := 0, countdown_started := 0,
    timer1_interrupt_flag := 0, button_toggle_pressed := 0, buzzer_triggered := 0,
    buzzer_time := 0, hours_inc_pressed := 0, hours_dec_pressed := 0,
    minutes_inc_pressed := 0, minutes_dec_pressed := 0, seconds_inc_pressed := 0,
    seconds_dec_pressed := 0, PORTA := 0, PORTB := 0, PORTC := 0, PORTD := 0 }

/-- Function `initGPIO` (lines 79-120), restricted to the port registers; the data
direction registers are not modelled. -/
def initGPIO (s : State) : State :=
  let s := { s with PORTA := 0x00 }
  let s := { s with PORTD := s.PORTD ||| (1 <<< PD2) }
  let s := { s with PORTB := s.PORTB ||| ((1 <<< PB2) ||| (1 <<< PB7) ||| (1 <<< PB1) |||
              (1 <<< PB0) ||| (1 <<< PB4) ||| (1 <<< PB3) ||| (1 <<< PB6) ||| (1 <<< PB5)) }
  let s := { s with PORTD := clearBit s.PORTD PD3 }
  let s := { s with PORTD := s.PORTD &&& (0xFF ^^^ ((1 <<< RED_LED) ||| (1 <<< YELLOW_LED))) }
  let s := { s with PORTD := clearBit s.PORTD BUZZER_PIN }
  s

/-- The state in which `main` enters its loop. -/
def initialState : State := initGPIO powerOn

/-! ## Digit splitter -/

/-- Function `updateDisplayDigits` (lines 326-333): the six stores cover the whole array. -/
def updateDisplayDigits (s : State) : State :=
  { s with display_digits :=
      [s.hours / 10, s.hours % 10, s.minutes / 10, s.minutes % 10,
       s.seconds / 10, s.seconds % 10] }

/-! ## Button handler -/

/-- Lines 152-157: count-mode toggle on `PB7`. -/
def pollToggle (PINB : Nat) (s : State) : State :=
  if readPin PINB PB7 = 0 ∧ s.button_toggle_pressed = 0 then
    let s := { s with button_toggle_pressed := 1 }
    { s with stopwatch_mode := if s.stopwatch_mode = 0 then 1 else 0 }
  else if readPin PINB PB7 ≠ 0 ∧ s.button_toggle_pressed = 1 then
    { s with button_toggle_pressed := 0 }
  else s

/-- Lines 160-166: hours increment on `PB1`. -/
def pollHoursInc (PINB : Nat) (s : State) : State :=
  if readPin PINB PB1 = 0 ∧ s.hours_inc_pressed = 0 then
    let s := { s with hours_inc_pressed := 1 }
    let s := { s with hours := (s.hours + 1) % 24 }
    updateDisplayDigits s
  else if readPin PINB PB1 ≠ 0 ∧ s.hours_inc_pressed = 1 then
    { s with hours_inc_pressed := 0 }
  else s

/-- Lines 169-175: hours decrement on `PB0`. -/
def pollHoursDec (PINB : Nat) (s : State) : State :=
  if readPin PINB PB0 = 0 ∧ s.hours_dec_pressed = 0 then
    let s := { s with hours_dec_pressed := 1 }
    let s := { s with hours := if s.hours > 0 then s.hours - 1 else 23 }
    updateDisplayDigits s
  else if readPin PINB PB0 ≠ 0 ∧ s.hours_dec_pressed = 1 then
    { s with hours_dec_pressed := 0 }
  else s

/-- Lines 178-188: minutes increment on `PB4`. -/
def pollMinutesInc (PINB : Nat) (s : State) : State :=
  if readPin PINB PB4 = 0 ∧ s.minutes_inc_pressed = 0 then
    let s := { s with minutes_inc_pressed := 1 }
    let s := { s with minutes := incr8 s.minutes }
    let s := if s.minutes ≥ 60 then
        let s := { s with minutes := 0 }
        { s with hours := (s.hours + 1) % 24 }
      else s
    updateDisplayDigits s
  else if readPin PINB PB4 ≠ 0 ∧ s.minutes_inc_pressed = 1 then
    { s with minutes_inc_pressed := 0 }
  else s

/-- Lines 191-202: minutes decrement on `PB3`. -/
def pollMinutesDec (PINB : Nat) (s : State) : State :=
  if readPin PINB PB3 = 0 ∧ s.minutes_dec_pressed = 0 then
    let s := { s with minutes_dec_pressed := 1 }
    let s := if s.minutes > 0 then
        { s with minutes := s.minutes - 1 }
      else
        let s := { s with minutes := 59 }
        { s with hours := if s.hours > 0 then s.hours - 1 else 23 }
    updateDisplayDigits s
  else if readPin PINB PB3 ≠ 0 ∧ s.minutes_dec_pressed = 1 then
    { s with minutes_dec_pressed := 0 }
  else s

/-- Lines 205-219: seconds increment on `PB6`. -/
def pollSecondsInc (PINB : Nat) (s : State) : State :=
  if readPin PINB PB6 = 0 ∧ s.seconds_inc_pressed = 0 then
    let s := { s with seconds_inc_pressed := 1 }
    let s := { s with seconds := incr8 s.seconds }
    let s := if s.seconds ≥ 60 then
        let s := { s with seconds := 0 }
        let s := { s with minutes := incr8 s.minutes }
        if s.minutes ≥ 60 then
          let s := { s with minutes := 0 }
          { s with hours := (s.hours + 1) % 24 }
        else s
      else s
    updateDisplayDigits s
  else if readPin PINB PB6 ≠ 0 ∧ s.seconds_inc_pressed = 1 then
    { s with seconds_inc_pressed := 0 }
  else s

/-- Lines 222-238: seconds decrement on `PB5`. -/
def pollSecondsDec (PINB : Nat) (s : State) : State :=
  if readPin PINB PB5 = 0 ∧ s.seconds_dec_pressed = 0 then
    let s := { s with seconds_dec_pressed := 1 }
    let s := if s.seconds > 0 then
        { s with seconds := s.seconds - 1 }
      else
        let s := { s with seconds := 59 }
        if s.minutes > 0 then
          { s with minutes := s.minutes - 1 }
        else
          let s := { s with minutes := 59 }
          { s with hours := if s.hours > 0 then s.hours - 1 else 23 }
    updateDisplayDigits s
  else if readPin PINB PB5 ≠ 0 ∧ s.seconds_dec_pressed = 1 then
    { s with seconds_dec_pressed := 0 }
  else s

/-- Function `handleButtonPresses` (lines 150-239): the seven polled buttons in source
order.  `PINB` is the value the input register shows during the call. -/
def handleButtonPresses (PINB : Nat) (s : State) : State :=
  let s := pollToggle PINB s
  let s := pollHoursInc PINB s
  let s := pollHoursDec PINB s
  let s := pollMinutesInc PINB s
  let s := pollMinutesDec PINB s
  let s := pollSecondsInc PINB s
  let s := pollSecondsDec PINB s
  s

/-! ## Time update engine -/

/-- Lines 243-249 of `handleTimeUpdate`: the alarm is retired when
`buzzer_time == 5`. -/
def retireAlarm (s : State) : State :=
  if s.buzzer_time = 5 then
    let s := { s with PORTD := clearBit s.PORTD BUZZER_PIN }
    let s := { s with stopwatch_mode := 0 }
    let s := { s with buzzer_triggered := 0 }
    let s := { s with buzzer_time := 0 }
    { s with paused := 0 }
  else s

/-- Lines 255-265: one second forward, in increment mode. -/
def countUp (s : State) : State :=
  let s := { s with PORTD := setBit s.PORTD RED_LED }
  let s := { s with PORTD := clearBit s.PORTD YELLOW_LED }
  let s := { s with seconds := incr8 s.seconds }
  if s.seconds ≥ 60 then
    let s := { s with seconds := 0 }
    let s := { s with minutes := incr8 s.minutes }
    if s.minutes ≥ 60 then
      let s := { s with minutes := 0 }
      { s with hours := (s.hours + 1) % 24 }
    else s
  else s

/-- Lines 267-286: one second back in countdown mode, or the alarm at zero. -/
def countDown (s : State) : State :=
  let s := { s with PORTD := setBit s.PORTD YELLOW_LED }
  let s := { s with PORTD := clearBit s.PORTD RED_LED }
  if s.seconds > 0 ∨ s.minutes > 0 ∨ s.hours > 0 then
    if s.seconds = 0 then
      if s.minutes > 0 then
        let s := { s with minutes := s.minutes - 1 }
        { s with seconds := 59 }
      else if s.hours > 0 then
        let s := { s with hours := s.hours - 1 }
        let s := { s with minutes := 59 }
        { s with seconds := 59 }
      else s
    else
      { s with seconds := s.seconds - 1 }
  else
    let s := { s with paused := 1 }
    let s := { s with PORTD := setBit s.PORTD BUZZER_PIN }
    { s with buzzer_triggered := 1 }

/-- Lines 250-300 of `handleTimeUpdate`: consumption of a pending tick. -/
def consumeTick (s : State) : State :=
  if s.timer1_interrupt_flag ≠ 0 then
    let s := { s with timer1_interrupt_flag := 0 }
    if s.paused = 0 then
      let s := if s.stopwatch_mode = 0 then countUp s else countDown s
      updateDisplayDigits s
    else
      if s.stopwatch_mode = 0 then
        let s := { s with PORTD := setBit s.PORTD RED_LED }
        { s with PORTD := clearBit s.PORTD YELLOW_LED }
      else
        let s := { s with PORTD := setBit s.PORTD YELLOW_LED }
        { s with PORTD := clearBit s.PORTD RED_LED }
  else s

/-- Function `handleTimeUpdate` (lines 242-301): two consecutive `if` statements. -/
def handleTimeUpdate (s : State) : State :=
  consumeTick (retireAlarm s)

/-! ## Display multiplexer -/

/-- Function `multiplexDisplays` (lines 306-314); the busy-wait `_delay_ms(2)` has no
effect on the state.  The store to `ENABLE_PORT` keeps the low byte. -/
def multiplexDisplays (s : State) : State :=
  let s := { s with PORTA := 0x00 }
  let s := { s with PORTC := (s.PORTC &&& 0xF0) |||
              (s.display_digits.getD s.current_display 0 &&& 0x0F) }
  let s := { s with PORTA := (s.PORTA ||| (1 <<< s.current_display)) % 256 }
  { s with current_display := (s.current_display + 1) % 6 }

/-! ## Interrupt handlers -/

/-- Handler `ISR(TIMER1_COMPA_vect)` (lines 318-323). -/
def TIMER1_COMPA_vect (s : State) : State :=
  let s := { s with timer1_interrupt_flag := 1 }
  if s.buzzer_triggered ≠ 0 then
    { s with buzzer_time := incr8 s.buzzer_time }
  else s

/-- Handler `ISR(INT0_vect)` (lines 336-344): reset. -/
def INT0_vect (s : State) : State :=
  let s := { s with hours := 0 }
  let s := { s with minutes := 0 }
  let s := { s with seconds := 0 }
  let s := { s with stopwatch_mode := 0 }
  let s := { s with paused := 0 }
  updateDisplayDigits s

/-- Handler `ISR(INT1_vect)` (lines 347-349): pause. -/
def INT1_vect (s : State) : State :=
  { s with paused := 1 }

/-- Handler `ISR(INT2_vect)` (lines 352-356): resume. -/
def INT2_vect (s : State) : State :=
  if s.paused ≠ 0 then { s with paused := 0 } else s

/-! ## Vocabulary of the properties -/

/-- One tick: the compare-match handler followed by one `handleTimeUpdate`. -/
def tick (s : State) : State := handleTimeUpdate (TIMER1_COMPA_vect s)

/-- The run of `n` ticks in a row. -/
def ticks : Nat → State → State
  | 0, s => s
  | n + 1, s => ticks n (tick s)

/-- The time of day in seconds. -/
def total (s : State) : Nat := 3600 * s.hours + 60 * s.minutes + s.seconds

/-- The level of pin `pin` of an output register. -/
def portBit (port pin : Nat) : Bool := port.testBit pin

/-- The buzzer output: bit `BUZZER_PIN` of `PORTD`. -/
def buzzerOn (s : State) : Bool := portBit s.PORTD BUZZER_PIN

/-! ## Vocabulary of the button properties -/

/-- The seven polled buttons, in the order `handleButtonPresses` reads them. -/
inductive Button where
  | toggle | hoursInc | hoursDec | minutesInc | minutesDec | secondsInc | secondsDec
  deriving DecidableEq, Repr

/-- The pin of `PINB` a button is wired to. -/
def Button.pin : Button → Nat
  | .toggle => PB7
  | .hoursInc => PB1
  | .hoursDec => PB0
  | .minutesInc => PB4
  | .minutesDec => PB3
  | .secondsInc => PB6
  | .secondsDec => PB5

/-- The held flag of a button. -/
def Button.held : Button → State → Nat
  | .toggle, s => s.button_toggle_pressed
  | .hoursInc, s => s.hours_inc_pressed
  | .hoursDec, s => s.hours_dec_pressed
  | .minutesInc, s => s.minutes_inc_pressed
  | .minutesDec, s => s.minutes_dec_pressed
  | .secondsInc, s => s.seconds_inc_pressed
  | .secondsDec, s => s.seconds_dec_pressed

/-- The block of `handleButtonPresses` that serves a button. -/
def poll : Button → Nat → State → State
  | .toggle => pollToggle
  | .hoursInc => pollHoursInc
  | .hoursDec => pollHoursDec
  | .minutesInc => pollMinutesInc
  | .minutesDec => pollMinutesDec
  | .secondsInc => pollSecondsInc
  | .secondsDec => pollSecondsDec

/-- The order of the blocks in `handleButtonPresses`. -/
def pollOrder : List Button :=
  [.toggle, .hoursInc, .hoursDec, .minutesInc, .minutesDec, .secondsInc, .secondsDec]

/-- The blocks of the buttons `bs`, one after the other. -/
def pollAll (PINB : Nat) (bs : List Button) (s : State) : State :=
  bs.foldl (fun t c => poll c PINB t) s

/-- The value of `PINB` when button `b` is pressed (its line low) and every
other line is released (high). -/
def pressOnly (b : Button) : Nat := 0xFF - (1 <<< b.pin)

/-- The run of `n` consecutive calls of `handleButtonPresses` that all read `PINB`. -/
def polls (PINB : Nat) : Nat → State → State
  | 0, s => s
  | n + 1, s => polls PINB n (handleButtonPresses PINB s)

/-- What a button can change of the time keeping: the time, the mode and the
display digits. -/
def view (s : State) : Nat × Nat × Nat × Nat × List Nat :=
  (s.hours, s.minutes, s.seconds, s.stopwatch_mode, s.display_digits)

/-- One separate press of button `b`: a poll that reads only `b` pressed,
followed by a poll that reads every line released. -/
def press (b : Button) (s : State) : State :=
  handleButtonPresses 0xFF (handleButtonPresses (pressOnly b) s)

/-- The run of `n` separate presses of button `b`. -/
def presses (b : Button) : Nat → State → State
  | 0, s => s
  | n + 1, s => presses b n (press b s)

/-! ## Scenario states -/

/-- The count-mode button pressed once, then the seconds-increment button
pressed twice, from the initial state: countdown mode at 00:00:02. -/
def countdownAt2 : State :=
  handleButtonPresses (pressOnly Button.secondsInc)
    (handleButtonPresses 0xFF
      (handleButtonPresses (pressOnly Button.secondsInc)
        (handleButtonPresses (pressOnly Button.toggle) initialState)))

/-- Countdown mode at 00:00:01, running, no alarm. -/
def countdownAt1 : State :=
  handleButtonPresses (pressOnly Button.secondsInc)
    (handleButtonPresses (pressOnly Button.toggle) initialState)

/-- A state in which the alarm has just been entered: `countdownAt1` after the
tick that reaches zero and the tick that is consumed at zero. -/
def alarmEntered : State := ticks 2 countdownAt1

/-- The countdown scenario started at 00:00:02, at the entry of the
`handleTimeUpdate` call that finds `buzzer_time = 5`: seven ticks, then the
compare-match handler. -/
def retiringEntry : State := TIMER1_COMPA_vect (ticks 7 countdownAt2)

/-- The time 01:01:01, set from the initial state by one separate press of
each increment button. -/
def adjusted : State :=
  press .secondsInc (press .minutesInc (press .hoursInc initialState))

/-- Countdown at 00:00:00, running, with a tick pending: `countdownAt1` after
one tick and the next compare match. -/
def zeroPending : State := TIMER1_COMPA_vect (tick countdownAt1)

/-! ## Vocabulary of the time-update properties -/

/-- The time on the clock: hours, minutes, seconds. -/
def clock (s : State) : Nat × Nat × Nat := (s.hours, s.minutes, s.seconds)

/-- The RED indicator: bit `RED_LED` of `PORTD`. -/
def redOn (s : State) : Bool := portBit s.PORTD RED_LED

/-- The YELLOW indicator: bit `YELLOW_LED` of `PORTD`. -/
def yellowOn (s : State) : Bool := portBit s.PORTD YELLOW_LED

/-- The range predicate of the time fields. -/
def inRange (s : State) : Prop := s.hours ≤ 23 ∧ s.minutes ≤ 59 ∧ s.seconds ≤ 59

instance (s : State) : Decidable (inRange s) := by
  unfold inRange; infer_instance

/-- The display digits are the split of the current time. -/
def digitsFresh (s : State) : Prop :=
  s.display_digits = [s.hours / 10, s.hours % 10, s.minutes / 10, s.minutes % 10,
    s.seconds / 10, s.seconds % 10]

instance (s : State) : Decidable (digitsFresh s) := by
  unfold digitsFresh; infer_instance

/-- Countdown at 00:01:00, running, with a tick pending: the count-mode button
and the minutes-increment button pressed once each, then a compare match. -/
def countdownAt60 : State :=
  TIMER1_COMPA_vect (handleButtonPresses (pressOnly Button.minutesInc)
    (handleButtonPresses (pressOnly Button.toggle) initialState))

/-- The run of `n` consecutive calls of `multiplexDisplays`. -/
def muxes : Nat → State → State
  | 0, s => s
  | n + 1, s => muxes n (multiplexDisplays s)

/-- The state 01:01:01 paused by the pause handler, with a tick pending. -/
def pausedPending : State := TIMER1_COMPA_vect (INT1_vect adjusted)

/-- The increment and decrement button of each time field. -/
def adjustPairs : List (Button × Button) :=
  [(.hoursInc, .hoursDec), (.minutesInc, .minutesDec), (.secondsInc, .secondsDec)]

/-- The state 23:59:59 with no button held: one separate press of the
seconds-decrement button from the initial state. -/
def lastSecond : State := press .secondsDec initialState

/-- The states the firmware can reach from the initial state: any
interleaving of the three functions of the main loop and the four interrupt
handlers, each run as one step, under any inputs. -/
inductive Reachable : State → Prop where
  | init : Reachable initialState
  | buttons (PINB : Nat) {s : State} : Reachable s → Reachable (handleButtonPresses PINB s)
  | timeUpdate {s : State} : Reachable s → Reachable (handleTimeUpdate s)
  | multiplex {s : State} : Reachable s → Reachable (multiplexDisplays s)
  | timer1 {s : State} : Reachable s → Reachable (TIMER1_COMPA_vect s)
  | int0 {s : State} : Reachable s → Reachable (INT0_vect s)
  | int1 {s : State} : Reachable s → Reachable (INT1_vect s)
  | int2 {s : State} : Reachable s → Reachable (INT2_vect s)

/-- The buzzer output agrees with `buzzer_triggered`. -/
def buzzerAgrees (s : State) : Prop := buzzerOn s = true ↔ s.buzzer_triggered = 1

/-- The alarm after four ticks and then two compare matches with no
`handleTimeUpdate` call between them: `buzzer_time` has gone from 4 to 6. -/
def overrun : State := TIMER1_COMPA_vect (TIMER1_COMPA_vect (ticks 4 alarmEntered))

/-- The state 01:01:01 in increment mode with a tick pending. -/
def adjustedPending : State := TIMER1_COMPA_vect adjusted

/-- The state 00:00:00 in countdown mode, running, with a tick pending and no
button held: the count-mode button pressed and released, then a compare
match. -/
def countdownAt0 : State := TIMER1_COMPA_vect (press .toggle initialState)

/-! ## Vocabulary and states of the press and countdown properties -/

/-- The seconds by which one press of an adjustment button moves the time of
day, modulo a day of 86400 seconds. -/
def Button.delta : Button → Nat
  | .toggle => 0
  | .hoursInc => 3600
  | .hoursDec => 86400 - 3600
  | .minutesInc => 60
  | .minutesDec => 86400 - 60
  | .secondsInc => 1
  | .secondsDec => 86400 - 1

/-- The alarm entered at 00:00:00, then the minutes-increment button pressed
once and the resume handler run: countdown mode at 00:01:00, running, with
`buzzer_triggered` still 1. -/
def resumedAlarm : State := INT2_vect (press .minutesInc alarmEntered)

/-- The state `resumedAlarm` after a compare match: a tick is pending and
`buzzer_time` is 1. -/
def resumedPending : State := TIMER1_COMPA_vect resumedAlarm

/-- The state `resumedAlarm` after four ticks and a compare match: countdown
mode at 00:00:56, running, a tick pending, `buzzer_time = 5`. -/
def resumedAtFive : State := TIMER1_COMPA_vect (ticks 4 resumedAlarm)

/-- A probe state outside the range invariant: the initial state with
`minutes = 200`. -/
def orderProbe : State := { initialState with minutes := 200 }

set_option maxRecDepth 20000

/-! ## Bits of the output port -/

theorem portBit_setBit (p k j : Nat) :
    portBit (setBit p k) j = (portBit p j || decide (k = j)) := by
  simp only [portBit, setBit, Nat.testBit_or, Nat.one_shiftLeft, Nat.testBit_two_pow]

theorem portBit_clearBit (p k j : Nat) (hk : k < 8) :
    portBit (clearBit p k) j = (portBit p j && (decide (j < 8) && !decide (k = j))) := by
  have h255 : (0xFF : Nat) = 2 ^ 8 - 1 := by norm_num
  simp only [portBit, clearBit, Nat.testBit_and, Nat.testBit_xor, Nat.one_shiftLeft,
    Nat.testBit_two_pow, h255, Nat.testBit_two_pow_sub_one]
  by_cases h1 : j < 8 <;> by_cases h2 : k = j <;> simp [h1, h2]
  omega

theorem portBit_clearBit_red (p j : Nat) :
    portBit (clearBit p RED_LED) j = (portBit p j && (decide (j < 8) && !decide (RED_LED = j))) :=
  portBit_clearBit p RED_LED j (by decide)

theorem portBit_clearBit_yellow (p j : Nat) :
    portBit (clearBit p YELLOW_LED) j
      = (portBit p j && (decide (j < 8) && !decide (YELLOW_LED = j))) :=
  portBit_clearBit p YELLOW_LED j (by decide)

theorem portBit_clearBit_buzzer (p j : Nat) :
    portBit (clearBit p BUZZER_PIN) j
      = (portBit p j && (decide (j < 8) && !decide (BUZZER_PIN = j))) :=
  portBit_clearBit p BUZZER_PIN j (by decide)

/-! ## Ticks in increment mode -/

/-- One tick of a running increment-mode stopwatch with no alarm keeps the
time in range, keeps the stopwatch running in increment mode, and moves the
time of day by one second modulo a day. -/
theorem tick_increment (s : State) (hh : s.hours < 24) (hm : s.minutes < 60)
    (hs : s.seconds < 60) (hmode : s.stopwatch_mode = 0) (hp : s.paused = 0)
    (hb : s.buzzer_triggered = 0) :
    ((tick s).hours < 24 ∧ (tick s).minutes < 60 ∧ (tick s).seconds < 60 ∧
      (tick s).stopwatch_mode = 0 ∧ (tick s).paused = 0 ∧ (tick s).buzzer_triggered = 0) ∧
    total (tick s) = (total s + 1) % 86400 := by
  simp only [tick, TIMER1_COMPA_vect, handleTimeUpdate, retireAlarm, consumeTick, countUp,
    updateDisplayDigits, total, incr8, hb, hmode, hp]
  split_ifs <;> simp_all <;> omega

/-- C1: in increment mode, running, with no alarm active and the time in
range, `n` ticks leave the time in range and move the time of day by `n`
seconds modulo 86400. -/
theorem C1_increment_counts_seconds (s : State) (n : Nat)
    (hh : s.hours < 24) (hm : s.minutes < 60) (hs : s.seconds < 60)
    (hmode : s.stopwatch_mode = 0) (hp : s.paused = 0) (hb : s.buzzer_triggered = 0) :
    (ticks n s).hours < 24 ∧ (ticks n s).minutes < 60 ∧ (ticks n s).seconds < 60 ∧
    3600 * (ticks n s).hours + 60 * (ticks n s).minutes + (ticks n s).seconds
      = (3600 * s.hours + 60 * s.minutes + s.seconds + n) % 86400 := by
  induction n generalizing s with
  | zero =>
    refine ⟨hh, hm, hs, ?_⟩
    simp only [ticks]
    omega
  | succ k ih =>
    obtain ⟨⟨h1, h2, h3, h4, h5, h6⟩, ht⟩ := tick_increment s hh hm hs hmode hp hb
    obtain ⟨r1, r2, r3, r4⟩ := ih (tick s) h1 h2 h3 h4 h5 h6
    refine ⟨r1, r2, r3, ?_⟩
    simp only [ticks]
    simp only [total] at ht
    rw [r4, ht]
    omega

/-- C1, the scenario: the initial state is 00:00:00 in increment mode,
running, with no alarm, and 61 ticks from it give 00:01:01. -/
theorem C1_increment_counts_seconds_witness :
    (initialState.hours = 0 ∧ initialState.minutes = 0 ∧ initialState.seconds = 0 ∧
      initialState.stopwatch_mode = 0 ∧ initialState.paused = 0 ∧
      initialState.buzzer_triggered = 0) ∧
    ((ticks 61 initialState).hours < 24 ∧ (ticks 61 initialState).minutes < 60 ∧
      (ticks 61 initialState).seconds < 60 ∧
      3600 * (ticks 61 initialState).hours + 60 * (ticks 61 initialState).minutes
          + (ticks 61 initialState).seconds
        = (3600 * initialState.hours + 60 * initialState.minutes + initialState.seconds + 61)
            % 86400) ∧
    (ticks 61 initialState).hours = 0 ∧ (ticks 61 initialState).minutes = 1 ∧
      (ticks 61 initialState).seconds = 1 := by
  have h0 : initialState.hours = 0 ∧ initialState.minutes = 0 ∧ initialState.seconds = 0 ∧
      initialState.stopwatch_mode = 0 ∧ initialState.paused = 0 ∧
      initialState.buzzer_triggered = 0 := by decide
  have h := C1_increment_counts_seconds initialState 61 (by decide) (by decide) (by decide)
    (by decide) (by decide) (by decide)
  refine ⟨h0, h, ?_⟩
  obtain ⟨e1, e2, e3, -⟩ := h0
  rw [e1, e2, e3] at h
  omega

/-! ## Countdown and the alarm -/

/-- C2, as stated, fails: from countdown mode at 00:00:01, running, with no
alarm, the first tick reaches 00:00:00 without setting `buzzer_triggered`,
`paused` or the buzzer output. -/
theorem C2_counterexample :
    countdownAt1.stopwatch_mode = 1 ∧ countdownAt1.paused = 0 ∧
    (countdownAt1.hours = 0 ∧ countdownAt1.minutes = 0 ∧ countdownAt1.seconds = 1) ∧
    (countdownAt1.buzzer_triggered = 0 ∧ countdownAt1.buzzer_time = 0 ∧
      buzzerOn countdownAt1 = false) ∧
    ¬ (((tick countdownAt1).hours = 0 ∧ (tick countdownAt1).minutes = 0 ∧
          (tick countdownAt1).seconds = 0) ∧
        (tick countdownAt1).buzzer_triggered = 1 ∧ (tick countdownAt1).paused = 1 ∧
        buzzerOn (tick countdownAt1) = true) := by
  decide

/-- C2, amended: from countdown mode at 00:00:01, running, with no alarm
active, the first tick gives 00:00:00 with `buzzer_triggered`, `paused` and the
buzzer output all still clear; the second tick leaves 00:00:00 and sets
`buzzer_triggered = 1`, `paused = 1` and the buzzer output. -/
theorem C2_alarm_on_second_tick (s : State)
    (hmode : s.stopwatch_mode ≠ 0) (hp : s.paused = 0)
    (hh : s.hours = 0) (hm : s.minutes = 0) (hs : s.seconds = 1)
    (hb : s.buzzer_triggered = 0) (hbt : s.buzzer_time = 0) (hz : buzzerOn s = false) :
    (((tick s).hours = 0 ∧ (tick s).minutes = 0 ∧ (tick s).seconds = 0) ∧
      (tick s).buzzer_triggered = 0 ∧ (tick s).paused = 0 ∧ buzzerOn (tick s) = false) ∧
    (((ticks 2 s).hours = 0 ∧ (ticks 2 s).minutes = 0 ∧ (ticks 2 s).seconds = 0) ∧
      (ticks 2 s).buzzer_triggered = 1 ∧ (ticks 2 s).paused = 1 ∧
      buzzerOn (ticks 2 s) = true) := by
  simp only [buzzerOn] at hz
  simp [ticks, tick, TIMER1_COMPA_vect, handleTimeUpdate, retireAlarm, consumeTick, countDown,
    updateDisplayDigits, buzzerOn, incr8, hb, hmode, hp, hh, hm, hs, hbt, hz,
    portBit_setBit, portBit_clearBit_red, portBit_clearBit_yellow, portBit_clearBit_buzzer]

/-- C2, amended, at the state reached from the initial state by one press of
the count-mode button and one press of the seconds-increment button. -/
theorem C2_alarm_on_second_tick_witness :
    (((tick countdownAt1).hours = 0 ∧ (tick countdownAt1).minutes = 0 ∧
        (tick countdownAt1).seconds = 0) ∧
      (tick countdownAt1).buzzer_triggered = 0 ∧ (tick countdownAt1).paused = 0 ∧
      buzzerOn (tick countdownAt1) = false) ∧
    (((ticks 2 countdownAt1).hours = 0 ∧ (ticks 2 countdownAt1).minutes = 0 ∧
        (ticks 2 countdownAt1).seconds = 0) ∧
      (ticks 2 countdownAt1).buzzer_triggered = 1 ∧ (ticks 2 countdownAt1).paused = 1 ∧
      buzzerOn (ticks 2 countdownAt1) = true) :=
  C2_alarm_on_second_tick countdownAt1 (by decide) (by decide) (by decide) (by decide)
    (by decide) (by decide) (by decide) (by decide)

/-- One tick while the alarm sounds and has sounded for fewer than four ticks:
the alarm stays active and `buzzer_time` goes up by one. -/
theorem tick_alarm_sounding (s : State) (j : Nat) (hj : j < 4)
    (hb : s.buzzer_triggered = 1) (hbt : s.buzzer_time = j) (hp : s.paused = 1)
    (hz : buzzerOn s = true) :
    (tick s).buzzer_triggered = 1 ∧ (tick s).buzzer_time = j + 1 ∧ (tick s).paused = 1 ∧
      buzzerOn (tick s) = true := by
  simp only [buzzerOn] at hz
  have h5 : ¬ (incr8 j = 5) := by simp only [incr8]; omega
  have hj1 : incr8 j = j + 1 := by simp only [incr8]; omega
  simp only [tick, TIMER1_COMPA_vect, handleTimeUpdate, retireAlarm, consumeTick, buzzerOn,
    hb, hbt, hp]
  have hj4 : ¬ (j = 4) := by omega
  by_cases hm : s.stopwatch_mode = 0 <;>
    simp [hm, h5, hj1, hj4, hz, portBit_setBit, portBit_clearBit_red, portBit_clearBit_yellow]

/-- The tick that takes `buzzer_time` from 4 to 5 retires the alarm. -/
theorem tick_alarm_retires (s : State)
    (hb : s.buzzer_triggered = 1) (hbt : s.buzzer_time = 4) :
    (tick s).stopwatch_mode = 0 ∧ (tick s).paused = 0 ∧ buzzerOn (tick s) = false ∧
      (tick s).buzzer_triggered = 0 ∧ (tick s).buzzer_time = 0 := by
  simp [tick, TIMER1_COMPA_vect, handleTimeUpdate, retireAlarm, consumeTick, countUp,
    updateDisplayDigits, buzzerOn, incr8, hb, hbt, portBit_setBit, portBit_clearBit_red,
    portBit_clearBit_yellow, portBit_clearBit_buzzer]
  split_ifs <;> simp [portBit_setBit, portBit_clearBit_red,
    portBit_clearBit_yellow, portBit_clearBit_buzzer]

/-- C3: from a state in which the alarm has just been entered, the alarm is
still active after each of the first four ticks, and after the fifth tick the
stopwatch is in increment mode, running, with the buzzer off and
`buzzer_triggered`, `buzzer_time` both zero. -/
theorem C3_alarm_retires_after_five_ticks (s : State)
    (hb : s.buzzer_triggered = 1) (hbt : s.buzzer_time = 0) (hp : s.paused = 1)
    (hz : buzzerOn s = true) :
    (∀ k, 1 ≤ k → k ≤ 4 →
      (ticks k s).buzzer_triggered = 1 ∧ (ticks k s).paused = 1 ∧
        buzzerOn (ticks k s) = true) ∧
    ((ticks 5 s).stopwatch_mode = 0 ∧ (ticks 5 s).paused = 0 ∧ buzzerOn (ticks 5 s) = false ∧
      (ticks 5 s).buzzer_triggered = 0 ∧ (ticks 5 s).buzzer_time = 0) := by
  obtain ⟨a1, b1, c1, d1⟩ := tick_alarm_sounding s 0 (by omega) hb hbt hp hz
  obtain ⟨a2, b2, c2, d2⟩ := tick_alarm_sounding (tick s) 1 (by omega) a1 b1 c1 d1
  obtain ⟨a3, b3, c3, d3⟩ := tick_alarm_sounding (tick (tick s)) 2 (by omega) a2 b2 c2 d2
  obtain ⟨a4, b4, c4, d4⟩ :=
    tick_alarm_sounding (tick (tick (tick s))) 3 (by omega) a3 b3 c3 d3
  refine ⟨?_, ?_⟩
  · intro k h1 h4
    interval_cases k
    · exact ⟨a1, c1, d1⟩
    · exact ⟨a2, c2, d2⟩
    · exact ⟨a3, c3, d3⟩
    · exact ⟨a4, c4, d4⟩
  · exact tick_alarm_retires (tick (tick (tick (tick s)))) a4 b4

/-- C3 at the state reached by counting down from 00:00:01 into the alarm. -/
theorem C3_alarm_retires_after_five_ticks_witness :
    (∀ k, 1 ≤ k → k ≤ 4 →
      (ticks k alarmEntered).buzzer_triggered = 1 ∧ (ticks k alarmEntered).paused = 1 ∧
        buzzerOn (ticks k alarmEntered) = true) ∧
    ((ticks 5 alarmEntered).stopwatch_mode = 0 ∧ (ticks 5 alarmEntered).paused = 0 ∧
      buzzerOn (ticks 5 alarmEntered) = false ∧
      (ticks 5 alarmEntered).buzzer_triggered = 0 ∧ (ticks 5 alarmEntered).buzzer_time = 0) :=
  C3_alarm_retires_after_five_ticks alarmEntered (by decide) (by decide) (by decide)
    (by decide)

/-- C4, as stated, fails: in the countdown scenario started at 00:00:02 the
call of `handleTimeUpdate` that is entered with `buzzer_time = 5` retires the
alarm and, in the same call, consumes the pending tick; it changes `seconds`
and `timer1_interrupt_flag`, and the time at its end is 00:00:01. -/
theorem C4_counterexample :
    (countdownAt2.stopwatch_mode = 1 ∧ countdownAt2.paused = 0 ∧ countdownAt2.hours = 0 ∧
      countdownAt2.minutes = 0 ∧ countdownAt2.seconds = 2) ∧
    retiringEntry.buzzer_time = 5 ∧
    ¬ ((handleTimeUpdate retiringEntry).hours = retiringEntry.hours ∧
        (handleTimeUpdate retiringEntry).minutes = retiringEntry.minutes ∧
        (handleTimeUpdate retiringEntry).seconds = retiringEntry.seconds ∧
        (handleTimeUpdate retiringEntry).timer1_interrupt_flag
          = retiringEntry.timer1_interrupt_flag) ∧
    (handleTimeUpdate retiringEntry).buzzer_triggered = 0 ∧
    ¬ ((handleTimeUpdate retiringEntry).hours = 0 ∧
        (handleTimeUpdate retiringEntry).minutes = 0 ∧
        (handleTimeUpdate retiringEntry).seconds = 0) := by
  decide

/-- C4, amended: `handleTimeUpdate` runs the retirement and then the tick
consumption in one call.  Entered with `buzzer_time = 5` it leaves the time
and `timer1_interrupt_flag` unchanged when no tick is pending; when a tick is
pending it clears the flag and, the time being in range, moves the time of day
by one second.  In the countdown scenario started at 00:00:02 the alarm is
still active after 7 ticks, is retired by the 8th, and the time at the end of
that call is 00:00:01. -/
theorem C4_retirement_consumes_pending_tick (s : State) (hbt : s.buzzer_time = 5) :
    (s.timer1_interrupt_flag = 0 →
      (handleTimeUpdate s).hours = s.hours ∧ (handleTimeUpdate s).minutes = s.minutes ∧
      (handleTimeUpdate s).seconds = s.seconds ∧
      (handleTimeUpdate s).timer1_interrupt_flag = s.timer1_interrupt_flag) ∧
    (s.timer1_interrupt_flag ≠ 0 → s.hours < 24 → s.minutes < 60 → s.seconds < 60 →
      (handleTimeUpdate s).timer1_interrupt_flag = 0 ∧
      total (handleTimeUpdate s) = (total s + 1) % 86400) ∧
    ((ticks 7 countdownAt2).buzzer_triggered = 1 ∧
      (ticks 8 countdownAt2).buzzer_triggered = 0 ∧
      (ticks 8 countdownAt2).hours = 0 ∧ (ticks 8 countdownAt2).minutes = 0 ∧
      (ticks 8 countdownAt2).seconds = 1) := by
  refine ⟨?_, ?_, by decide⟩
  · intro hf
    simp [handleTimeUpdate, retireAlarm, consumeTick, hbt, hf]
  · intro hf hh hm hs
    simp only [handleTimeUpdate, retireAlarm, consumeTick, countUp, updateDisplayDigits, total,
      incr8, hbt]
    split_ifs <;> simp_all <;> omega

/-- C4, amended, at the entry of the retiring call of the countdown scenario
started at 00:00:02. -/
theorem C4_retirement_consumes_pending_tick_witness :
    retiringEntry.buzzer_time = 5 ∧ retiringEntry.timer1_interrupt_flag ≠ 0 ∧
    (handleTimeUpdate retiringEntry).timer1_interrupt_flag = 0 ∧
    total (handleTimeUpdate retiringEntry) = (total retiringEntry + 1) % 86400 :=
  ⟨by decide, by decide,
    (C4_retirement_consumes_pending_tick retiringEntry (by decide)).2.1 (by decide)
      (by decide) (by decide) (by decide)⟩

/-! ## Reset, pause and resume -/

/-- C5: the reset handler yields time 00:00:00, increment mode, running and
all-zero display digits from every state, and is idempotent. -/
theorem C5_reset_total_idempotent (s : State) :
    ((INT0_vect s).hours = 0 ∧ (INT0_vect s).minutes = 0 ∧ (INT0_vect s).seconds = 0 ∧
      (INT0_vect s).stopwatch_mode = 0 ∧ (INT0_vect s).paused = 0 ∧
      (INT0_vect s).display_digits = [0, 0, 0, 0, 0, 0]) ∧
    INT0_vect (INT0_vect s) = INT0_vect s := by
  simp [INT0_vect, updateDisplayDigits]

/-! ## The button handler -/

theorem handleButtonPresses_eq_pollAll (PINB : Nat) (s : State) :
    handleButtonPresses PINB s = pollAll PINB pollOrder s := rfl

theorem pollToggle_released (PINB : Nat) (s : State) (h : readPin PINB PB7 ≠ 0) :
    pollToggle PINB s = { s with button_toggle_pressed :=
      if s.button_toggle_pressed = 1 then 0 else s.button_toggle_pressed } := by
  cases s
  simp only [pollToggle, h, false_and, if_false, ne_eq, not_false_eq_true, true_and]
  split_ifs <;> simp_all

theorem pollHoursInc_released (PINB : Nat) (s : State) (h : readPin PINB PB1 ≠ 0) :
    pollHoursInc PINB s = { s with hours_inc_pressed :=
      if s.hours_inc_pressed = 1 then 0 else s.hours_inc_pressed } := by
  cases s
  simp only [pollHoursInc, h, false_and, if_false, ne_eq, not_false_eq_true, true_and]
  split_ifs <;> simp_all

theorem pollHoursDec_released (PINB : Nat) (s : State) (h : readPin PINB PB0 ≠ 0) :
    pollHoursDec PINB s = { s with hours_dec_pressed :=
      if s.hours_dec_pressed = 1 then 0 else s.hours_dec_pressed } := by
  cases s
  simp only [pollHoursDec, h, false_and, if_false, ne_eq, not_false_eq_true, true_and]
  split_ifs <;> simp_all

theorem pollMinutesInc_released (PINB : Nat) (s : State) (h : readPin PINB PB4 ≠ 0) :
    pollMinutesInc PINB s = { s with minutes_inc_pressed :=
      if s.minutes_inc_pressed = 1 then 0 else s.minutes_inc_pressed } := by
  cases s
  simp only [pollMinutesInc, h, false_and, if_false, ne_eq, not_false_eq_true, true_and]
  split_ifs <;> simp_all

theorem pollMinutesDec_released (PINB : Nat) (s : State) (h : readPin PINB PB3 ≠ 0) :
    pollMinutesDec PINB s = { s with minutes_dec_pressed :=
      if s.minutes_dec_pressed = 1 then 0 else s.minutes_dec_pressed } := by
  cases s
  simp only [pollMinutesDec, h, false_and, if_false, ne_eq, not_false_eq_true, true_and]
  split_ifs <;> simp_all

theorem pollSecondsInc_released (PINB : Nat) (s : State) (h : readPin PINB PB6 ≠ 0) :
    pollSecondsInc PINB s = { s with seconds_inc_pressed :=
      if s.seconds_inc_pressed = 1 then 0 else s.seconds_inc_pressed } := by
  cases s
  simp only [pollSecondsInc, h, false_and, if_false, ne_eq, not_false_eq_true, true_and]
  split_ifs <;> simp_all

theorem pollSecondsDec_released (PINB : Nat) (s : State) (h : readPin PINB PB5 ≠ 0) :
    pollSecondsDec PINB s = { s with seconds_dec_pressed :=
      if s.seconds_dec_pressed = 1 then 0 else s.seconds_dec_pressed } := by
  cases s
  simp only [pollSecondsDec, h, false_and, if_false, ne_eq, not_false_eq_true, true_and]
  split_ifs <;> simp_all

/-- A block whose line reads released changes nothing but its own held flag. -/
theorem poll_released (c : Button) (PINB : Nat) (s : State)
    (h : readPin PINB c.pin ≠ 0) :
    view (poll c PINB s) = view s ∧
    (∀ b, b ≠ c → b.held (poll c PINB s) = b.held s) ∧
    c.held (poll c PINB s) = (if c.held s = 1 then 0 else c.held s) := by
  cases c
  · rw [poll, pollToggle_released _ _ h]
    exact ⟨rfl, fun b hb => by cases b <;> first | rfl | exact absurd rfl hb, rfl⟩
  · rw [poll, pollHoursInc_released _ _ h]
    exact ⟨rfl, fun b hb => by cases b <;> first | rfl | exact absurd rfl hb, rfl⟩
  · rw [poll, pollHoursDec_released _ _ h]
    exact ⟨rfl, fun b hb => by cases b <;> first | rfl | exact absurd rfl hb, rfl⟩
  · rw [poll, pollMinutesInc_released _ _ h]
    exact ⟨rfl, fun b hb => by cases b <;> first | rfl | exact absurd rfl hb, rfl⟩
  · rw [poll, pollMinutesDec_released _ _ h]
    exact ⟨rfl, fun b hb => by cases b <;> first | rfl | exact absurd rfl hb, rfl⟩
  · rw [poll, pollSecondsInc_released _ _ h]
    exact ⟨rfl, fun b hb => by cases b <;> first | rfl | exact absurd rfl hb, rfl⟩
  · rw [poll, pollSecondsDec_released _ _ h]
    exact ⟨rfl, fun b hb => by cases b <;> first | rfl | exact absurd rfl hb, rfl⟩

/-- A block whose line reads pressed while its held flag is 1 does nothing. -/
theorem poll_held (c : Button) (PINB : Nat) (s : State)
    (h : readPin PINB c.pin = 0) (hh : c.held s = 1) : poll c PINB s = s := by
  cases c <;> simp only [Button.held, Button.pin] at h hh <;>
    simp [poll, pollToggle, pollHoursInc, pollHoursDec, pollMinutesInc, pollMinutesDec,
      pollSecondsInc, pollSecondsDec, h, hh]

theorem held_updateDisplayDigits (b : Button) (s : State) :
    b.held (updateDisplayDigits s) = b.held s := by
  cases b <;> rfl

/-- A block whose line reads pressed while its held flag is 0 sets the flag
and leaves the other held flags. -/
theorem poll_edge (c : Button) (PINB : Nat) (s : State)
    (h : readPin PINB c.pin = 0) (hh : c.held s = 0) :
    c.held (poll c PINB s) = 1 ∧ ∀ b, b ≠ c → b.held (poll c PINB s) = b.held s := by
  cases c <;> simp only [Button.held, Button.pin] at h hh <;>
    simp only [poll, pollToggle, pollHoursInc, pollHoursDec, pollMinutesInc, pollMinutesDec,
      pollSecondsInc, pollSecondsDec, h, hh, and_self, if_true, held_updateDisplayDigits] <;>
    refine ⟨?_, fun b hb => ?_⟩
  all_goals (try cases b)
  all_goals (try (exact absurd rfl hb))
  all_goals (try split_ifs)
  all_goals rfl

/-- With only `b` pressed, the line of `c` reads low exactly when `c = b`. -/
theorem pressOnly_low (b c : Button) :
    readPin (pressOnly b) c.pin = 0 ↔ c = b := by
  cases b <;> cases c <;> decide

theorem pollAll_cons (PINB : Nat) (c : Button) (cs : List Button) (s : State) :
    pollAll PINB (c :: cs) s = pollAll PINB cs (poll c PINB s) := rfl

/-- While `b` is held down and its flag is 1, no block changes the view or
the flag of `b`. -/
theorem pollAll_held (b : Button) (bs : List Button) (s : State) (hh : b.held s = 1) :
    view (pollAll (pressOnly b) bs s) = view s ∧
    b.held (pollAll (pressOnly b) bs s) = 1 := by
  induction bs generalizing s with
  | nil => exact ⟨rfl, hh⟩
  | cons c cs ih =>
    rw [pollAll_cons]
    by_cases hc : c = b
    · subst hc
      rw [poll_held c _ s ((pressOnly_low c c).2 rfl) hh]
      exact ih s hh
    · have hr : readPin (pressOnly b) c.pin ≠ 0 := fun h0 => hc ((pressOnly_low b c).1 h0)
      obtain ⟨hv, hf, -⟩ := poll_released c (pressOnly b) s hr
      have hb : b.held (poll c (pressOnly b) s) = 1 := by
        rw [hf b (fun e => hc e.symm)]; exact hh
      obtain ⟨iv, ih2⟩ := ih (poll c (pressOnly b) s) hb
      exact ⟨iv.trans hv, ih2⟩

/-- The poll that sees the edge of `b` leaves the flag of `b` at 1. -/
theorem pollAll_edge (b : Button) (bs : List Button) (s : State) (hh : b.held s = 0)
    (hmem : b ∈ bs) : b.held (pollAll (pressOnly b) bs s) = 1 := by
  induction bs generalizing s with
  | nil => simp at hmem
  | cons c cs ih =>
    rw [pollAll_cons]
    by_cases hc : c = b
    · subst hc
      obtain ⟨h1, -⟩ := poll_edge c (pressOnly c) s ((pressOnly_low c c).2 rfl) hh
      exact (pollAll_held c cs _ h1).2
    · have hr : readPin (pressOnly b) c.pin ≠ 0 := fun h0 => hc ((pressOnly_low b c).1 h0)
      obtain ⟨-, hf, -⟩ := poll_released c (pressOnly b) s hr
      have hb : b.held (poll c (pressOnly b) s) = 0 := by
        rw [hf b (fun e => hc e.symm)]; exact hh
      have hm : b ∈ cs := by
        rcases List.mem_cons.1 hmem with h | h
        · exact absurd h.symm hc
        · exact h
      exact ih _ hb hm

theorem mem_pollOrder (b : Button) : b ∈ pollOrder := by
  cases b <;> simp [pollOrder]

/-- Further polls of a held button change nothing of the view. -/
theorem polls_held (b : Button) (m : Nat) (s : State) (hh : b.held s = 1) :
    view (polls (pressOnly b) m s) = view s := by
  induction m generalizing s with
  | zero => rfl
  | succ k ih =>
    obtain ⟨hv, hf⟩ := pollAll_held b pollOrder s hh
    rw [← handleButtonPresses_eq_pollAll] at hv hf
    simp only [polls]
    rw [ih _ hf, hv]

/-! ## Separate presses of the increment buttons -/

/-- One separate press of the hours-increment button. -/
theorem press_hoursInc (s : State) (h0 : s.hours_inc_pressed = 0) :
    (press .hoursInc s).hours = (s.hours + 1) % 24 ∧
    (press .hoursInc s).hours_inc_pressed = 0 := by
  have p7 : readPin (pressOnly .hoursInc) PB7 ≠ 0 := by decide
  have p1 : readPin (pressOnly .hoursInc) PB1 = 0 := by decide
  have p0 : readPin (pressOnly .hoursInc) PB0 ≠ 0 := by decide
  have p4 : readPin (pressOnly .hoursInc) PB4 ≠ 0 := by decide
  have p3 : readPin (pressOnly .hoursInc) PB3 ≠ 0 := by decide
  have p6 : readPin (pressOnly .hoursInc) PB6 ≠ 0 := by decide
  have p5 : readPin (pressOnly .hoursInc) PB5 ≠ 0 := by decide
  have r7 : readPin 0xFF PB7 ≠ 0 := by decide
  have r1 : readPin 0xFF PB1 ≠ 0 := by decide
  have r0 : readPin 0xFF PB0 ≠ 0 := by decide
  have r4 : readPin 0xFF PB4 ≠ 0 := by decide
  have r3 : readPin 0xFF PB3 ≠ 0 := by decide
  have r6 : readPin 0xFF PB6 ≠ 0 := by decide
  have r5 : readPin 0xFF PB5 ≠ 0 := by decide
  simp only [press, handleButtonPresses,
    pollToggle_released _ _ p7,
    pollHoursDec_released _ _ p0,
    pollMinutesInc_released _ _ p4,
    pollMinutesDec_released _ _ p3,
    pollSecondsInc_released _ _ p6,
    pollSecondsDec_released _ _ p5,
    pollToggle_released _ _ r7,
    pollHoursInc_released _ _ r1,
    pollHoursDec_released _ _ r0,
    pollMinutesInc_released _ _ r4,
    pollMinutesDec_released _ _ r3,
    pollSecondsInc_released _ _ r6,
    pollSecondsDec_released _ _ r5]
  simp [pollHoursInc, p1, h0, updateDisplayDigits]

/-- One separate press of the minutes-increment button. -/
theorem press_minutesInc (s : State) (h0 : s.minutes_inc_pressed = 0) (hlt : s.minutes < 60) :
    (press .minutesInc s).minutes = (s.minutes + 1) % 60 ∧
    (press .minutesInc s).minutes_inc_pressed = 0 := by
  have p7 : readPin (pressOnly .minutesInc) PB7 ≠ 0 := by decide
  have p1 : readPin (pressOnly .minutesInc) PB1 ≠ 0 := by decide
  have p0 : readPin (pressOnly .minutesInc) PB0 ≠ 0 := by decide
  have p4 : readPin (pressOnly .minutesInc) PB4 = 0 := by decide
  have p3 : readPin (pressOnly .minutesInc) PB3 ≠ 0 := by decide
  have p6 : readPin (pressOnly .minutesInc) PB6 ≠ 0 := by decide
  have p5 : readPin (pressOnly .minutesInc) PB5 ≠ 0 := by decide
  have r7 : readPin 0xFF PB7 ≠ 0 := by decide
  have r1 : readPin 0xFF PB1 ≠ 0 := by decide
  have r0 : readPin 0xFF PB0 ≠ 0 := by decide
  have r4 : readPin 0xFF PB4 ≠ 0 := by decide
  have r3 : readPin 0xFF PB3 ≠ 0 := by decide
  have r6 : readPin 0xFF PB6 ≠ 0 := by decide
  have r5 : readPin 0xFF PB5 ≠ 0 := by decide
  simp only [press, handleButtonPresses,
    pollToggle_released _ _ p7,
    pollHoursInc_released _ _ p1,
    pollHoursDec_released _ _ p0,
    pollMinutesDec_released _ _ p3,
    pollSecondsInc_released _ _ p6,
    pollSecondsDec_released _ _ p5,
    pollToggle_released _ _ r7,
    pollHoursInc_released _ _ r1,
    pollHoursDec_released _ _ r0,
    pollMinutesInc_released _ _ r4,
    pollMinutesDec_released _ _ r3,
    pollSecondsInc_released _ _ r6,
    pollSecondsDec_released _ _ r5]
  have hmod : (s.minutes + 1) % 256 = s.minutes + 1 := Nat.mod_eq_of_lt (by omega)
  simp [pollMinutesInc, p4, h0, updateDisplayDigits, incr8, hmod, apply_ite State.minutes,
    apply_ite State.minutes_inc_pressed]
  split_ifs <;> omega

/-- One separate press of the seconds-increment button. -/
theorem press_secondsInc (s : State) (h0 : s.seconds_inc_pressed = 0) (hlt : s.seconds < 60) :
    (press .secondsInc s).seconds = (s.seconds + 1) % 60 ∧
    (press .secondsInc s).seconds_inc_pressed = 0 := by
  have p7 : readPin (pressOnly .secondsInc) PB7 ≠ 0 := by decide
  have p1 : readPin (pressOnly .secondsInc) PB1 ≠ 0 := by decide
  have p0 : readPin (pressOnly .secondsInc) PB0 ≠ 0 := by decide
  have p4 : readPin (pressOnly .secondsInc) PB4 ≠ 0 := by decide
  have p3 : readPin (pressOnly .secondsInc) PB3 ≠ 0 := by decide
  have p6 : readPin (pressOnly .secondsInc) PB6 = 0 := by decide
  have p5 : readPin (pressOnly .secondsInc) PB5 ≠ 0 := by decide
  have r7 : readPin 0xFF PB7 ≠ 0 := by decide
  have r1 : readPin 0xFF PB1 ≠ 0 := by decide
  have r0 : readPin 0xFF PB0 ≠ 0 := by decide
  have r4 : readPin 0xFF PB4 ≠ 0 := by decide
  have r3 : readPin 0xFF PB3 ≠ 0 := by decide
  have r6 : readPin 0xFF PB6 ≠ 0 := by decide
  have r5 : readPin 0xFF PB5 ≠ 0 := by decide
  simp only [press, handleButtonPresses,
    pollToggle_released _ _ p7,
    pollHoursInc_released _ _ p1,
    pollHoursDec_released _ _ p0,
    pollMinutesInc_released _ _ p4,
    pollMinutesDec_released _ _ p3,
    pollSecondsDec_released _ _ p5,
    pollToggle_released _ _ r7,
    pollHoursInc_released _ _ r1,
    pollHoursDec_released _ _ r0,
    pollMinutesInc_released _ _ r4,
    pollMinutesDec_released _ _ r3,
    pollSecondsInc_released _ _ r6,
    pollSecondsDec_released _ _ r5]
  have hmod : (s.seconds + 1) % 256 = s.seconds + 1 := Nat.mod_eq_of_lt (by omega)
  simp [pollSecondsInc, p6, h0, updateDisplayDigits, incr8, hmod, apply_ite State.seconds,
    apply_ite State.seconds_inc_pressed]
  split_ifs <;> omega

theorem presses_hoursInc (n : Nat) (s : State) (h0 : s.hours_inc_pressed = 0)
    (hlt : s.hours < 24) :
    (presses .hoursInc n s).hours = (s.hours + n) % 24 ∧
    (presses .hoursInc n s).hours_inc_pressed = 0 := by
  induction n generalizing s with
  | zero => exact ⟨by simp only [presses]; omega, h0⟩
  | succ k ih =>
    obtain ⟨e, f⟩ := press_hoursInc s h0
    obtain ⟨e2, f2⟩ := ih (press .hoursInc s) f (by omega)
    simp only [presses]
    exact ⟨by rw [e2, e]; omega, f2⟩

theorem presses_minutesInc (n : Nat) (s : State) (h0 : s.minutes_inc_pressed = 0)
    (hlt : s.minutes < 60) :
    (presses .minutesInc n s).minutes = (s.minutes + n) % 60 ∧
    (presses .minutesInc n s).minutes_inc_pressed = 0 := by
  induction n generalizing s with
  | zero => exact ⟨by simp only [presses]; omega, h0⟩
  | succ k ih =>
    obtain ⟨e, f⟩ := press_minutesInc s h0 hlt
    obtain ⟨e2, f2⟩ := ih (press .minutesInc s) f (by omega)
    simp only [presses]
    exact ⟨by rw [e2, e]; omega, f2⟩

theorem presses_secondsInc (n : Nat) (s : State) (h0 : s.seconds_inc_pressed = 0)
    (hlt : s.seconds < 60) :
    (presses .secondsInc n s).seconds = (s.seconds + n) % 60 ∧
    (presses .secondsInc n s).seconds_inc_pressed = 0 := by
  induction n generalizing s with
  | zero => exact ⟨by simp only [presses]; omega, h0⟩
  | succ k ih =>
    obtain ⟨e, f⟩ := press_secondsInc s h0 hlt
    obtain ⟨e2, f2⟩ := ih (press .secondsInc s) f (by omega)
    simp only [presses]
    exact ⟨by rw [e2, e]; omega, f2⟩

/-- C7: with the held flag of the button clear, 24 separate presses of the
hours-increment button return `hours < 24` to its value, and 60 separate
presses of the minutes-increment (seconds-increment) button return
`minutes < 60` (`seconds < 60`) to its value. -/
theorem C7_wraparound (s : State) :
    (s.hours < 24 → s.hours_inc_pressed = 0 →
      (presses .hoursInc 24 s).hours = s.hours) ∧
    (s.minutes < 60 → s.minutes_inc_pressed = 0 →
      (presses .minutesInc 60 s).minutes = s.minutes) ∧
    (s.seconds < 60 → s.seconds_inc_pressed = 0 →
      (presses .secondsInc 60 s).seconds = s.seconds) := by
  refine ⟨fun hlt h0 => ?_, fun hlt h0 => ?_, fun hlt h0 => ?_⟩
  · rw [(presses_hoursInc 24 s h0 hlt).1]; omega
  · rw [(presses_minutesInc 60 s h0 hlt).1]; omega
  · rw [(presses_secondsInc 60 s h0 hlt).1]; omega

/-- C7 at 01:01:01, reached from the initial state by one separate press of
each increment button. -/
theorem C7_wraparound_witness :
    (adjusted.hours = 1 ∧ adjusted.minutes = 1 ∧ adjusted.seconds = 1) ∧
    (presses .hoursInc 24 adjusted).hours = adjusted.hours ∧
    (presses .minutesInc 60 adjusted).minutes = adjusted.minutes ∧
    (presses .secondsInc 60 adjusted).seconds = adjusted.seconds :=
  ⟨by decide, (C7_wraparound adjusted).1 (by decide) (by decide),
    (C7_wraparound adjusted).2.1 (by decide) (by decide),
    (C7_wraparound adjusted).2.2 (by decide) (by decide)⟩

/-! ## The digit splitter -/

/-- C8: for an in-range time `updateDisplayDigits` writes six digits, each at
most 9, in the order hours-tens, hours-units, minutes-tens, minutes-units,
seconds-tens, seconds-units, that recompose the three fields; the digits are
a function of hours, minutes and seconds alone; and a second call changes
nothing. -/
theorem C8_digit_split (s : State) (hh : s.hours < 24) (hm : s.minutes < 60)
    (hs : s.seconds < 60) :
    (∃ d0 d1 d2 d3 d4 d5 : Nat,
      (updateDisplayDigits s).display_digits = [d0, d1, d2, d3, d4, d5] ∧
      (d0 ≤ 9 ∧ d1 ≤ 9 ∧ d2 ≤ 9 ∧ d3 ≤ 9 ∧ d4 ≤ 9 ∧ d5 ≤ 9) ∧
      10 * d0 + d1 = s.hours ∧ 10 * d2 + d3 = s.minutes ∧ 10 * d4 + d5 = s.seconds) ∧
    (∀ t : State, t.hours = s.hours → t.minutes = s.minutes → t.seconds = s.seconds →
      (updateDisplayDigits t).display_digits = (updateDisplayDigits s).display_digits) ∧
    updateDisplayDigits (updateDisplayDigits s) = updateDisplayDigits s := by
  refine ⟨⟨s.hours / 10, s.hours % 10, s.minutes / 10, s.minutes % 10, s.seconds / 10,
    s.seconds % 10, rfl, ?_, ?_, ?_, ?_⟩, ?_, rfl⟩
  · omega
  · omega
  · omega
  · omega
  · intro t e1 e2 e3
    simp only [updateDisplayDigits, e1, e2, e3]

/-- C8 at 01:01:01. -/
theorem C8_digit_split_witness :
    (updateDisplayDigits adjusted).display_digits = [0, 1, 0, 1, 0, 1] ∧
    updateDisplayDigits (updateDisplayDigits adjusted) = updateDisplayDigits adjusted :=
  ⟨by decide, (C8_digit_split adjusted (by decide) (by decide) (by decide)).2.2⟩

/-! ## Pause and resume -/

/-- C9: pause followed by resume leaves hours, minutes, seconds and the mode
unchanged and ends running; pause is idempotent; resume changes nothing in a
state that is not paused. -/
theorem C9_pause_resume (s : State) :
    ((INT2_vect (INT1_vect s)).hours = s.hours ∧
      (INT2_vect (INT1_vect s)).minutes = s.minutes ∧
      (INT2_vect (INT1_vect s)).seconds = s.seconds ∧
      (INT2_vect (INT1_vect s)).stopwatch_mode = s.stopwatch_mode ∧
      (INT2_vect (INT1_vect s)).paused = 0) ∧
    INT1_vect (INT1_vect s) = INT1_vect s ∧
    (s.paused = 0 → INT2_vect s = s) := by
  refine ⟨by simp [INT1_vect, INT2_vect], by simp [INT1_vect], fun h => ?_⟩
  simp [INT2_vect, h]

/-- C9: resume in the initial state, which is not paused. -/
theorem C9_pause_resume_witness :
    initialState.paused = 0 ∧ INT2_vect initialState = initialState :=
  ⟨by decide, (C9_pause_resume initialState).2.2 (by decide)⟩

/-! ## The alarm trigger -/

/-- C10: in countdown mode, running, with `buzzer_time ≠ 5` and a tick
pending, `handleTimeUpdate` ends with `paused = 1`, `buzzer_triggered = 1` and
the buzzer output on exactly when the time is 00:00:00 on entry; in that case
the time stays 00:00:00 and the display digits are all zero. -/
theorem C10_alarm_on_tick_consumed_at_zero (s : State)
    (hmode : s.stopwatch_mode ≠ 0) (hp : s.paused = 0) (hbt : s.buzzer_time ≠ 5)
    (hf : s.timer1_interrupt_flag ≠ 0) :
    (((handleTimeUpdate s).paused = 1 ∧ (handleTimeUpdate s).buzzer_triggered = 1 ∧
        buzzerOn (handleTimeUpdate s) = true) ↔
      (s.hours = 0 ∧ s.minutes = 0 ∧ s.seconds = 0)) ∧
    ((s.hours = 0 ∧ s.minutes = 0 ∧ s.seconds = 0) →
      (handleTimeUpdate s).hours = 0 ∧ (handleTimeUpdate s).minutes = 0 ∧
      (handleTimeUpdate s).seconds = 0 ∧
      (handleTimeUpdate s).display_digits = [0, 0, 0, 0, 0, 0]) := by
  by_cases hz : s.seconds > 0 ∨ s.minutes > 0 ∨ s.hours > 0
  · have hnz : ¬ (s.hours = 0 ∧ s.minutes = 0 ∧ s.seconds = 0) := by omega
    have hpaused : (handleTimeUpdate s).paused = 0 := by
      simp only [handleTimeUpdate, retireAlarm, consumeTick, countDown, updateDisplayDigits,
        hmode, hp, hbt, hf, hz, if_true, if_false, ne_eq, not_false_eq_true]
      split_ifs <;> rfl
    refine ⟨⟨fun h => ?_, fun h => absurd h hnz⟩, fun h => absurd h hnz⟩
    rw [hpaused] at h
    exact absurd h.1 (by decide)
  · have h0 : s.hours = 0 ∧ s.minutes = 0 ∧ s.seconds = 0 := by omega
    obtain ⟨e1, e2, e3⟩ := h0
    simp [handleTimeUpdate, retireAlarm, consumeTick, countDown, updateDisplayDigits,
      buzzerOn, hmode, hp, hbt, hf, e1, e2, e3, portBit_setBit]

/-- C10 at the state reached from countdown at 00:00:01 by one tick and the
next compare match: the time is 00:00:00 on entry and the alarm is set. -/
theorem C10_alarm_on_tick_consumed_at_zero_witness :
    ((handleTimeUpdate zeroPending).paused = 1 ∧
      (handleTimeUpdate zeroPending).buzzer_triggered = 1 ∧
      buzzerOn (handleTimeUpdate zeroPending) = true) ∧
    (handleTimeUpdate zeroPending).display_digits = [0, 0, 0, 0, 0, 0] :=
  ⟨((C10_alarm_on_tick_consumed_at_zero zeroPending (by decide) (by decide) (by decide)
      (by decide)).1).2 (by decide),
   ((C10_alarm_on_tick_consumed_at_zero zeroPending (by decide) (by decide) (by decide)
      (by decide)).2 (by decide)).2.2.2⟩

/-! ## The indicator bits -/

/-- The port after the countdown branch has set YELLOW and cleared RED. -/
theorem leds_countdown (p : Nat) :
    portBit (clearBit (setBit p YELLOW_LED) RED_LED) YELLOW_LED = true ∧
    portBit (clearBit (setBit p YELLOW_LED) RED_LED) RED_LED = false ∧
    portBit (clearBit (setBit p YELLOW_LED) RED_LED) BUZZER_PIN = portBit p BUZZER_PIN := by
  simp only [portBit_clearBit_red, portBit_setBit]
  refine ⟨?_, ?_, ?_⟩ <;> simp [YELLOW_LED, RED_LED, BUZZER_PIN]

/-- The port after the increment branch has set RED and cleared YELLOW. -/
theorem leds_increment (p : Nat) :
    portBit (clearBit (setBit p RED_LED) YELLOW_LED) RED_LED = true ∧
    portBit (clearBit (setBit p RED_LED) YELLOW_LED) YELLOW_LED = false ∧
    portBit (clearBit (setBit p RED_LED) YELLOW_LED) BUZZER_PIN = portBit p BUZZER_PIN := by
  simp only [portBit_clearBit_yellow, portBit_setBit]
  refine ⟨?_, ?_, ?_⟩ <;> simp [YELLOW_LED, RED_LED, BUZZER_PIN]

/-! ## Countdown -/

/-- One consumed tick of a running countdown above zero. -/
theorem countdown_step (s : State) (hh : s.hours < 24) (hm : s.minutes < 60)
    (hs : s.seconds < 60) (hT : 0 < total s) (hmode : s.stopwatch_mode ≠ 0)
    (hp : s.paused = 0) (hbt : s.buzzer_time ≠ 5) (hf : s.timer1_interrupt_flag ≠ 0) :
    ((handleTimeUpdate s).hours < 24 ∧ (handleTimeUpdate s).minutes < 60 ∧
      (handleTimeUpdate s).seconds < 60) ∧
    total (handleTimeUpdate s) = total s - 1 ∧
    (yellowOn (handleTimeUpdate s) = true ∧ redOn (handleTimeUpdate s) = false) ∧
    (handleTimeUpdate s).paused = s.paused ∧
    (handleTimeUpdate s).buzzer_triggered = s.buzzer_triggered ∧
    (handleTimeUpdate s).stopwatch_mode = s.stopwatch_mode ∧
    (handleTimeUpdate s).buzzer_time = s.buzzer_time := by
  simp only [total] at hT
  have hz : s.seconds > 0 ∨ s.minutes > 0 ∨ s.hours > 0 := by omega
  obtain ⟨l1, l2, -⟩ := leds_countdown s.PORTD
  simp only [handleTimeUpdate, retireAlarm, consumeTick, countDown, updateDisplayDigits, total,
    yellowOn, redOn, hmode, hp, hbt, hf, hz, if_true, if_false, ne_eq, not_false_eq_true]
  split_ifs <;> simp only [l1, l2, and_self, true_and, and_true] <;> omega

/-! ## Invariants of the operations -/

theorem digitsFresh_updateDisplayDigits (s : State) :
    digitsFresh (updateDisplayDigits s) := rfl

/-- Every block of the button handler keeps the time in range. -/
theorem poll_inRange (c : Button) (PINB : Nat) (s : State) (h : inRange s) :
    inRange (poll c PINB s) := by
  obtain ⟨h1, h2, h3⟩ := h
  cases c <;>
    simp only [poll, pollToggle, pollHoursInc, pollHoursDec, pollMinutesInc, pollMinutesDec,
      pollSecondsInc, pollSecondsDec, inRange, updateDisplayDigits, incr8] <;>
    split_ifs <;> simp_all <;> omega

/-- Every block of the button handler keeps the display digits fresh. -/
theorem poll_digitsFresh (c : Button) (PINB : Nat) (s : State) (h : digitsFresh s) :
    digitsFresh (poll c PINB s) := by
  cases c <;>
    simp only [poll, pollToggle, pollHoursInc, pollHoursDec, pollMinutesInc, pollMinutesDec,
      pollSecondsInc, pollSecondsDec] <;>
    split_ifs <;> first | exact digitsFresh_updateDisplayDigits _ | exact h

theorem pollAll_inRange (PINB : Nat) (bs : List Button) (s : State) (h : inRange s) :
    inRange (pollAll PINB bs s) := by
  induction bs generalizing s with
  | nil => exact h
  | cons c cs ih => exact ih _ (poll_inRange c PINB s h)

theorem pollAll_digitsFresh (PINB : Nat) (bs : List Button) (s : State) (h : digitsFresh s) :
    digitsFresh (pollAll PINB bs s) := by
  induction bs generalizing s with
  | nil => exact h
  | cons c cs ih => exact ih _ (poll_digitsFresh c PINB s h)

theorem handleTimeUpdate_inRange (s : State) (h : inRange s) :
    inRange (handleTimeUpdate s) := by
  obtain ⟨h1, h2, h3⟩ := h
  simp only [handleTimeUpdate, retireAlarm, consumeTick, countUp, countDown,
    updateDisplayDigits, inRange, incr8]
  split_ifs <;> simp_all <;> omega

theorem handleTimeUpdate_digitsFresh (s : State) (h : digitsFresh s) :
    digitsFresh (handleTimeUpdate s) := by
  simp only [handleTimeUpdate, retireAlarm, consumeTick]
  split_ifs <;> first | exact digitsFresh_updateDisplayDigits _ | exact h

/-- C12: the time fields are in range (hours ≤ 23, minutes ≤ 59, seconds ≤ 59)
in the initial state, and every operation, taken as one step from an in-range
state, ends in an in-range state: `handleButtonPresses` for every value of
`PINB` and every setting of the held flags, `handleTimeUpdate`,
`multiplexDisplays` and the four interrupt handlers. -/
theorem C12_range_invariant (s : State) (h : inRange s) :
    inRange initialState ∧
    (∀ PINB, inRange (handleButtonPresses PINB s)) ∧
    inRange (handleTimeUpdate s) ∧
    inRange (multiplexDisplays s) ∧
    inRange (TIMER1_COMPA_vect s) ∧
    inRange (INT0_vect s) ∧
    inRange (INT1_vect s) ∧
    inRange (INT2_vect s) := by
  refine ⟨by decide, fun PINB => ?_, handleTimeUpdate_inRange s h, h, ?_, ?_, h, ?_⟩
  · rw [handleButtonPresses_eq_pollAll]
    exact pollAll_inRange PINB pollOrder s h
  · simp only [TIMER1_COMPA_vect]
    split_ifs <;> exact h
  · simp [INT0_vect, updateDisplayDigits, inRange]
  · simp only [INT2_vect]
    split_ifs <;> exact h

/-- C12 at 01:01:01. -/
theorem C12_range_invariant_witness :
    inRange adjusted ∧
    (∀ PINB, inRange (handleButtonPresses PINB adjusted)) ∧
    inRange (handleTimeUpdate adjusted) :=
  ⟨by decide, (C12_range_invariant adjusted (by decide)).2.1,
    (C12_range_invariant adjusted (by decide)).2.2.1⟩

/-- C13: the display digits are the split of the time in the initial state,
and every operation, taken as one step from a state in which they are, ends
in a state in which they are: `handleButtonPresses` for every value of `PINB`,
`handleTimeUpdate`, the reset handler, and `multiplexDisplays` and the other
three handlers, which touch neither the time nor the digits. -/
theorem C13_digits_never_stale (s : State) (h : digitsFresh s) :
    digitsFresh initialState ∧
    (∀ PINB, digitsFresh (handleButtonPresses PINB s)) ∧
    digitsFresh (handleTimeUpdate s) ∧
    digitsFresh (INT0_vect s) ∧
    digitsFresh (multiplexDisplays s) ∧
    digitsFresh (TIMER1_COMPA_vect s) ∧
    digitsFresh (INT1_vect s) ∧
    digitsFresh (INT2_vect s) := by
  refine ⟨by decide, fun PINB => ?_, handleTimeUpdate_digitsFresh s h,
    digitsFresh_updateDisplayDigits _, h, ?_, h, ?_⟩
  · rw [handleButtonPresses_eq_pollAll]
    exact pollAll_digitsFresh PINB pollOrder s h
  · simp only [TIMER1_COMPA_vect]
    split_ifs <;> exact h
  · simp only [INT2_vect]
    split_ifs <;> exact h

/-- C13 at 01:01:01. -/
theorem C13_digits_never_stale_witness :
    digitsFresh adjusted ∧
    (∀ PINB, digitsFresh (handleButtonPresses PINB adjusted)) ∧
    digitsFresh (handleTimeUpdate adjusted) :=
  ⟨by decide, (C13_digits_never_stale adjusted (by decide)).2.1,
    (C13_digits_never_stale adjusted (by decide)).2.2.1⟩

/-! ## The display multiplexer -/

/-- The segment port after the store of a digit: the low nibble is the low
nibble of the digit, the high nibble is kept. -/
theorem nibbles (p d : Nat) :
    ((p &&& 0xF0) ||| (d &&& 0x0F)) &&& 0x0F = d &&& 0x0F ∧
    ((p &&& 0xF0) ||| (d &&& 0x0F)) &&& 0xF0 = p &&& 0xF0 := by
  have hF : ∀ j, Nat.testBit 0x0F j = decide (j < 4) := by
    intro j
    have : (0x0F : Nat) = 2 ^ 4 - 1 := by norm_num
    rw [this, Nat.testBit_two_pow_sub_one]
  have hF0 : ∀ j, Nat.testBit 0xF0 j = (decide (4 ≤ j) && decide (j < 8)) := by
    intro j
    have : (0xF0 : Nat) = (2 ^ 4 - 1) <<< 4 := by decide
    rw [this, Nat.testBit_shiftLeft, Nat.testBit_two_pow_sub_one]
    by_cases h1 : 4 ≤ j <;> by_cases h2 : j < 8 <;> simp [h1, h2] <;> omega
  constructor <;> apply Nat.eq_of_testBit_eq <;> intro j <;>
    simp only [Nat.testBit_and, Nat.testBit_or, hF, hF0] <;>
    by_cases h1 : 4 ≤ j <;> by_cases h2 : j < 8 <;> by_cases h3 : j < 4 <;>
    simp [h1, h2, h3] <;> omega

/-- One refresh from a display index below 6. -/
theorem mux_step (s : State) (h : s.current_display < 6) :
    (multiplexDisplays s).PORTA = 1 <<< s.current_display ∧
    (multiplexDisplays s).current_display = (s.current_display + 1) % 6 := by
  refine ⟨?_, rfl⟩
  simp only [multiplexDisplays]
  generalize s.current_display = i at h
  interval_cases i <;> rfl

theorem muxes_succ_last (n : Nat) (s : State) :
    muxes (n + 1) s = multiplexDisplays (muxes n s) := by
  induction n generalizing s with
  | zero => rfl
  | succ k ih =>
    show muxes (k + 1) (multiplexDisplays s) = _
    rw [ih (multiplexDisplays s)]
    rfl

theorem muxes_current_display (n : Nat) (s : State) (h : s.current_display < 6) :
    (muxes n s).current_display = (s.current_display + n) % 6 := by
  induction n generalizing s with
  | zero => simp only [muxes]; omega
  | succ k ih =>
    have e := (mux_step s h).2
    simp only [muxes]
    rw [ih (multiplexDisplays s) (by rw [e]; omega), e]
    omega

theorem muxes_enable (k : Nat) (s : State) (h : s.current_display < 6) :
    (muxes (k + 1) s).PORTA = 1 <<< ((s.current_display + k) % 6) := by
  have e := muxes_current_display k s h
  rw [muxes_succ_last, (mux_step (muxes k s) (by rw [e]; omega)).1, e]

/-- C14: from `current_display = i < 6`, `multiplexDisplays` leaves the enable
port equal to `1 << i` (bit `i` set and every other bit clear), the low nibble
of the segment port equal to the low nibble of `display_digits[i]` with the
high nibble kept, and `current_display = (i + 1) mod 6`, which is below 6; six
consecutive calls enable each of the six displays exactly once and return
`current_display` to `i`. -/
theorem C14_single_display_rotation (s : State) (i : Nat) (hi : i < 6)
    (hc : s.current_display = i) :
    ((multiplexDisplays s).PORTA = 1 <<< i ∧
      ∀ j, portBit (multiplexDisplays s).PORTA j = decide (i = j)) ∧
    ((multiplexDisplays s).PORTC &&& 0x0F = s.display_digits.getD i 0 &&& 0x0F ∧
      (multiplexDisplays s).PORTC &&& 0xF0 = s.PORTC &&& 0xF0) ∧
    ((multiplexDisplays s).current_display = (i + 1) % 6 ∧
      (multiplexDisplays s).current_display < 6) ∧
    (∀ k, k < 6 → (muxes (k + 1) s).PORTA = 1 <<< ((i + k) % 6)) ∧
    (∀ j, j < 6 → ∃ k, k < 6 ∧ (muxes (k + 1) s).PORTA = 1 <<< j ∧
      ∀ m, m < 6 → (muxes (m + 1) s).PORTA = 1 <<< j → m = k) ∧
    (muxes 6 s).current_display = i := by
  subst hc
  obtain ⟨e1, e2⟩ := mux_step s hi
  have inj : ∀ a b : Nat, (1 : Nat) <<< a = 1 <<< b → a = b := by
    intro a b hab
    rw [Nat.one_shiftLeft, Nat.one_shiftLeft] at hab
    exact Nat.pow_right_injective (le_refl 2) hab
  refine ⟨⟨e1, fun j => ?_⟩, ?_, ⟨e2, ?_⟩, fun k _ => muxes_enable k s hi, fun j hj => ?_, ?_⟩
  · rw [e1, portBit, Nat.one_shiftLeft, Nat.testBit_two_pow]
  · exact nibbles s.PORTC (s.display_digits.getD s.current_display 0)
  · rw [e2]; omega
  · refine ⟨(j + 6 - s.current_display) % 6, by omega, ?_, fun m hm hp => ?_⟩
    · rw [muxes_enable _ s hi]
      congr 1
      omega
    · rw [muxes_enable m s hi] at hp
      have := inj _ _ hp
      omega
  · rw [muxes_current_display 6 s hi]; omega

/-- C14 at display 3 of the state showing 01:01:01. -/
theorem C14_single_display_rotation_witness :
    (multiplexDisplays (muxes 3 adjusted)).PORTA = 1 <<< 3 ∧
    (multiplexDisplays (muxes 3 adjusted)).current_display = (3 + 1) % 6 ∧
    (muxes 6 (muxes 3 adjusted)).current_display = 3 :=
  ⟨(C14_single_display_rotation (muxes 3 adjusted) 3 (by decide) (by decide)).1.1,
    (C14_single_display_rotation (muxes 3 adjusted) 3 (by decide) (by decide)).2.2.1.1,
    (C14_single_display_rotation (muxes 3 adjusted) 3 (by decide) (by decide)).2.2.2.2.2⟩

/-! ## Paused stopwatch and dropped ticks -/

/-- The LED pins apart, the bits of the low byte of the port are kept by the
indicator update of either mode. -/
theorem leds_other_pins (p j : Nat) (hr : j ≠ RED_LED) (hy : j ≠ YELLOW_LED) (h8 : j < 8) :
    portBit (clearBit (setBit p RED_LED) YELLOW_LED) j = portBit p j ∧
    portBit (clearBit (setBit p YELLOW_LED) RED_LED) j = portBit p j := by
  simp only [portBit_clearBit_yellow, portBit_clearBit_red, portBit_setBit]
  have h1 : ¬ (RED_LED = j) := fun e => hr e.symm
  have h2 : ¬ (YELLOW_LED = j) := fun e => hy e.symm
  simp [h1, h2, h8]

/-- C15: with `paused` set and `buzzer_time ≠ 5`, `handleTimeUpdate` leaves
the time, the display digits, the mode, `paused` and the buzzer state
unchanged; with no tick pending it changes nothing, and with a tick pending it
changes only the pending flag, which it clears, and the two LED pins: RED on
and YELLOW off in increment mode, YELLOW on and RED off in countdown mode. -/
theorem C15_paused_time_frozen (s : State) (hp : s.paused ≠ 0) (hbt : s.buzzer_time ≠ 5) :
    (clock (handleTimeUpdate s) = clock s ∧
      (handleTimeUpdate s).display_digits = s.display_digits ∧
      (handleTimeUpdate s).stopwatch_mode = s.stopwatch_mode ∧
      (handleTimeUpdate s).paused = s.paused ∧
      (handleTimeUpdate s).buzzer_triggered = s.buzzer_triggered ∧
      (handleTimeUpdate s).buzzer_time = s.buzzer_time ∧
      buzzerOn (handleTimeUpdate s) = buzzerOn s) ∧
    (s.timer1_interrupt_flag = 0 → handleTimeUpdate s = s) ∧
    (s.timer1_interrupt_flag ≠ 0 →
      handleTimeUpdate s
        = { s with timer1_interrupt_flag := 0, PORTD := (handleTimeUpdate s).PORTD } ∧
      (∀ j, j < 8 → j ≠ RED_LED → j ≠ YELLOW_LED →
        portBit (handleTimeUpdate s).PORTD j = portBit s.PORTD j) ∧
      (s.stopwatch_mode = 0 →
        redOn (handleTimeUpdate s) = true ∧ yellowOn (handleTimeUpdate s) = false) ∧
      (s.stopwatch_mode ≠ 0 →
        yellowOn (handleTimeUpdate s) = true ∧ redOn (handleTimeUpdate s) = false)) := by
  have hi := leds_increment s.PORTD
  have hc := leds_countdown s.PORTD
  by_cases hf : s.timer1_interrupt_flag = 0
  · have e : handleTimeUpdate s = s := by
      simp [handleTimeUpdate, retireAlarm, consumeTick, hbt, hf]
    rw [e]
    exact ⟨⟨rfl, rfl, rfl, rfl, rfl, rfl, rfl⟩, fun _ => rfl, fun h => absurd hf h⟩
  · by_cases hm : s.stopwatch_mode = 0
    · have e : handleTimeUpdate s = { s with
          timer1_interrupt_flag := 0
          PORTD := clearBit (setBit s.PORTD RED_LED) YELLOW_LED } := by
        simp [handleTimeUpdate, retireAlarm, consumeTick, hbt, hf, hp, hm]
      rw [e]
      refine ⟨⟨rfl, rfl, rfl, rfl, rfl, rfl, hi.2.2⟩, fun h => absurd h hf, fun _ =>
        ⟨rfl, fun j h8 hr hy => (leds_other_pins s.PORTD j hr hy h8).1,
          fun _ => ⟨hi.1, hi.2.1⟩, fun h => absurd hm h⟩⟩
    · have e : handleTimeUpdate s = { s with
          timer1_interrupt_flag := 0
          PORTD := clearBit (setBit s.PORTD YELLOW_LED) RED_LED } := by
        simp [handleTimeUpdate, retireAlarm, consumeTick, hbt, hf, hp, hm]
      rw [e]
      refine ⟨⟨rfl, rfl, rfl, rfl, rfl, rfl, hc.2.2⟩, fun h => absurd h hf, fun _ =>
        ⟨rfl, fun j h8 hr hy => (leds_other_pins s.PORTD j hr hy h8).2,
          fun h => absurd h hm, fun _ => ⟨hc.1, hc.2.1⟩⟩⟩

/-- C15 at 01:01:01, paused, with a tick pending. -/
theorem C15_paused_time_frozen_witness :
    (pausedPending.paused = 1 ∧ pausedPending.timer1_interrupt_flag = 1 ∧
      pausedPending.stopwatch_mode = 0) ∧
    clock (handleTimeUpdate pausedPending) = clock pausedPending ∧
    (redOn (handleTimeUpdate pausedPending) = true ∧
      yellowOn (handleTimeUpdate pausedPending) = false) :=
  ⟨by decide, (C15_paused_time_frozen pausedPending (by decide) (by decide)).1.1,
    ((C15_paused_time_frozen pausedPending (by decide) (by decide)).2.2 (by decide)).2.2.1
      (by decide)⟩

/-- The mode-toggle block changes neither the time nor the held flag of
another button. -/
theorem pollToggle_frame (PINB : Nat) (s : State) :
    clock (poll .toggle PINB s) = clock s ∧
    ∀ b : Button, b ≠ .toggle → b.held (poll .toggle PINB s) = b.held s := by
  simp only [poll, pollToggle]
  split_ifs <;> refine ⟨rfl, fun b hb => ?_⟩ <;> cases b <;>
    first | rfl | exact absurd rfl hb

/-- Blocks that are the toggle block or read their line released change
neither the time nor the held flag of a button that is not among them. -/
theorem pollAll_frame (PINB : Nat) (bs : List Button) (s : State)
    (h : ∀ c, c ∈ bs → c = .toggle ∨ readPin PINB c.pin ≠ 0) :
    clock (pollAll PINB bs s) = clock s ∧
    ∀ b, b ∉ bs → b.held (pollAll PINB bs s) = b.held s := by
  induction bs generalizing s with
  | nil => exact ⟨rfl, fun _ _ => rfl⟩
  | cons c cs ih =>
    rw [pollAll_cons]
    obtain ⟨i1, i2⟩ := ih (poll c PINB s) (fun d hd => h d (List.mem_cons_of_mem c hd))
    have hc : clock (poll c PINB s) = clock s ∧
        ∀ b, b ≠ c → b.held (poll c PINB s) = b.held s := by
      rcases h c (List.mem_cons_self c cs) with e | e
      · subst e
        exact pollToggle_frame PINB s
      · obtain ⟨hv, hf, -⟩ := poll_released c PINB s e
        refine ⟨?_, hf⟩
        simp only [view, Prod.mk.injEq] at hv
        simp only [clock, hv.1, hv.2.1, hv.2.2.1]
    refine ⟨i1.trans hc.1, fun b hb => ?_⟩
    have hb1 : b ≠ c := fun e => hb (e ▸ List.mem_cons_self c cs)
    have hb2 : b ∉ cs := fun e => hb (List.mem_cons_of_mem c e)
    rw [i2 b hb2, hc.2 b hb1]

theorem pollAll_append (PINB : Nat) (as bs : List Button) (s : State) :
    pollAll PINB (as ++ bs) s = pollAll PINB bs (pollAll PINB as s) := by
  simp only [pollAll, List.foldl_append]

/-- The increment block followed by the decrement block of one field, both at
a press edge, on an in-range time. -/
theorem pair_roundtrip (inc dec : Button) (hpair : (inc, dec) ∈ adjustPairs) (PINB : Nat)
    (s : State) (hr : inRange s) (hi : readPin PINB inc.pin = 0)
    (hd : readPin PINB dec.pin = 0) (h0i : inc.held s = 0) (h0d : dec.held s = 0) :
    clock (poll dec PINB (poll inc PINB s)) = clock s ∧
    inc.held (poll dec PINB (poll inc PINB s)) = 1 ∧
    dec.held (poll dec PINB (poll inc PINB s)) = 1 := by
  obtain ⟨r1, r2, r3⟩ := hr
  simp only [adjustPairs, List.mem_cons, Prod.mk.injEq, List.mem_singleton, List.mem_nil_iff,
    or_false] at hpair
  rcases hpair with ⟨rfl, rfl⟩ | ⟨rfl, rfl⟩ | ⟨rfl, rfl⟩ <;>
    simp only [Button.pin, Button.held] at hi hd h0i h0d <;>
    simp only [poll, pollHoursInc, pollHoursDec, pollMinutesInc, pollMinutesDec, pollSecondsInc,
      pollSecondsDec, updateDisplayDigits, incr8, clock, Button.held, hi, hd, h0i, h0d,
      and_self, if_true] <;>
    split_ifs <;> simp_all <;> omega

/-! ## The buzzer and the alarm flag -/

theorem poll_buzzer (c : Button) (PINB : Nat) (s : State) :
    (poll c PINB s).PORTD = s.PORTD ∧
    (poll c PINB s).buzzer_triggered = s.buzzer_triggered := by
  cases c <;>
    simp only [poll, pollToggle, pollHoursInc, pollHoursDec, pollMinutesInc, pollMinutesDec,
      pollSecondsInc, pollSecondsDec, updateDisplayDigits] <;>
    split_ifs <;> exact ⟨rfl, rfl⟩

theorem pollAll_buzzer (PINB : Nat) (bs : List Button) (s : State) :
    (pollAll PINB bs s).PORTD = s.PORTD ∧
    (pollAll PINB bs s).buzzer_triggered = s.buzzer_triggered := by
  induction bs generalizing s with
  | nil => exact ⟨rfl, rfl⟩
  | cons c cs ih =>
    obtain ⟨a, b⟩ := ih (poll c PINB s)
    obtain ⟨a2, b2⟩ := poll_buzzer c PINB s
    exact ⟨a.trans a2, b.trans b2⟩

theorem retireAlarm_buzzerAgrees (s : State) (h : buzzerAgrees s) :
    buzzerAgrees (retireAlarm s) := by
  simp only [retireAlarm]
  split_ifs
  · simp [buzzerAgrees, buzzerOn, portBit_clearBit_buzzer]
  · exact h

theorem consumeTick_buzzerAgrees (s : State) (h : buzzerAgrees s) :
    buzzerAgrees (consumeTick s) := by
  have hi := (leds_increment s.PORTD).2.2
  have hc := (leds_countdown s.PORTD).2.2
  simp only [buzzerAgrees, buzzerOn] at h ⊢
  simp only [consumeTick, countUp, countDown, updateDisplayDigits]
  split_ifs <;> first | exact h | simpa [hi, hc] using h | simp [portBit_setBit]

/-- C18: in every state reachable from the initial state by any interleaving
of `handleButtonPresses`, `handleTimeUpdate`, `multiplexDisplays` and the four
interrupt handlers, the buzzer output bit is on if and only if
`buzzer_triggered` is 1. -/
theorem C18_buzzer_iff_alarm_flag (s : State) (h : Reachable s) :
    buzzerOn s = true ↔ s.buzzer_triggered = 1 := by
  show buzzerAgrees s
  induction h with
  | init => simp only [buzzerAgrees]; decide
  | buttons PINB _ ih =>
    obtain ⟨a, b⟩ := pollAll_buzzer PINB pollOrder _
    rw [← handleButtonPresses_eq_pollAll] at a b
    unfold buzzerAgrees buzzerOn at ih ⊢
    rw [a, b]
    exact ih
  | timeUpdate _ ih => exact consumeTick_buzzerAgrees _ (retireAlarm_buzzerAgrees _ ih)
  | multiplex _ ih => exact ih
  | timer1 _ ih =>
    simp only [TIMER1_COMPA_vect]
    split_ifs <;> exact ih
  | int0 _ ih => exact ih
  | int1 _ ih => exact ih
  | int2 _ ih =>
    simp only [INT2_vect]
    split_ifs <;> exact ih

/-- The scenario states are reachable. -/
theorem reachable_ticks (n : Nat) (s : State) (h : Reachable s) : Reachable (ticks n s) := by
  induction n generalizing s with
  | zero => exact h
  | succ k ih => exact ih _ (.timeUpdate (.timer1 h))

theorem reachable_alarmEntered : Reachable alarmEntered := by
  have h1 : Reachable (handleButtonPresses (pressOnly Button.toggle) initialState) :=
    Reachable.buttons (pressOnly Button.toggle) Reachable.init
  have h2 : Reachable countdownAt1 := Reachable.buttons (pressOnly Button.secondsInc) h1
  exact reachable_ticks 2 countdownAt1 h2

theorem reachable_overrun : Reachable overrun :=
  .timer1 (.timer1 (reachable_ticks 4 _ reachable_alarmEntered))

/-- C18 at the state in which the alarm has just been entered: the buzzer is
on and `buzzer_triggered` is 1. -/
theorem C18_buzzer_iff_alarm_flag_witness :
    (buzzerOn alarmEntered = true ↔ alarmEntered.buzzer_triggered = 1) ∧
    buzzerOn alarmEntered = true :=
  ⟨C18_buzzer_iff_alarm_flag alarmEntered reachable_alarmEntered, by decide⟩

/-- A call entered with `buzzer_time = 5` ends with the alarm retired. -/
theorem handleTimeUpdate_retires (s : State) (h5 : s.buzzer_time = 5) :
    (handleTimeUpdate s).buzzer_triggered = 0 ∧ buzzerOn (handleTimeUpdate s) = false ∧
    (handleTimeUpdate s).paused = 0 ∧ (handleTimeUpdate s).stopwatch_mode = 0 := by
  have hi := (leds_increment (clearBit s.PORTD BUZZER_PIN)).2.2
  simp only [handleTimeUpdate, retireAlarm, consumeTick, countUp, updateDisplayDigits,
    buzzerOn, h5, if_true]
  split_ifs <;> simp [hi, portBit_clearBit_buzzer]

/-- A call entered with `buzzer_time ≠ 5` clears none of the four. -/
theorem handleTimeUpdate_keeps (s : State) (h5 : s.buzzer_time ≠ 5) :
    (s.buzzer_triggered ≠ 0 → (handleTimeUpdate s).buzzer_triggered ≠ 0) ∧
    (buzzerOn s = true → buzzerOn (handleTimeUpdate s) = true) ∧
    (s.paused ≠ 0 → (handleTimeUpdate s).paused ≠ 0) ∧
    (s.stopwatch_mode ≠ 0 → (handleTimeUpdate s).stopwatch_mode ≠ 0) := by
  have hi := (leds_increment s.PORTD).2.2
  have hc := (leds_countdown s.PORTD).2.2
  simp only [handleTimeUpdate, retireAlarm, consumeTick, countUp, countDown,
    updateDisplayDigits, buzzerOn, h5, if_false]
  split_ifs <;> simp_all [portBit_setBit]

/-- C20: `handleTimeUpdate` retires the alarm by the test `buzzer_time == 5`
alone.  Entered with `buzzer_time = 5` it ends with `buzzer_triggered`, the
buzzer output, `paused` and the mode all clear; entered with any other value
it clears none of them; so from a state in which one of them is set, all four
are clear afterwards if and only if `buzzer_time` is 5 on entry.  There is a
reachable state, after two compare matches between consecutive calls have
taken `buzzer_time` from 4 to 6, in which the alarm is active with
`buzzer_time > 5` and the next call leaves it active. -/
theorem C20_retirement_by_equality (s : State) :
    (s.buzzer_time = 5 →
      (handleTimeUpdate s).buzzer_triggered = 0 ∧ buzzerOn (handleTimeUpdate s) = false ∧
      (handleTimeUpdate s).paused = 0 ∧ (handleTimeUpdate s).stopwatch_mode = 0) ∧
    (s.buzzer_time ≠ 5 →
      (s.buzzer_triggered ≠ 0 → (handleTimeUpdate s).buzzer_triggered ≠ 0) ∧
      (buzzerOn s = true → buzzerOn (handleTimeUpdate s) = true) ∧
      (s.paused ≠ 0 → (handleTimeUpdate s).paused ≠ 0) ∧
      (s.stopwatch_mode ≠ 0 → (handleTimeUpdate s).stopwatch_mode ≠ 0)) ∧
    (s.buzzer_triggered ≠ 0 ∨ buzzerOn s = true ∨ s.paused ≠ 0 ∨ s.stopwatch_mode ≠ 0 →
      (((handleTimeUpdate s).buzzer_triggered = 0 ∧ buzzerOn (handleTimeUpdate s) = false ∧
          (handleTimeUpdate s).paused = 0 ∧ (handleTimeUpdate s).stopwatch_mode = 0) ↔
        s.buzzer_time = 5)) ∧
    (∃ t : State, Reachable t ∧
      (t.buzzer_triggered = 1 ∧ buzzerOn t = true ∧ t.paused = 1 ∧ 5 < t.buzzer_time) ∧
      ((handleTimeUpdate t).buzzer_triggered = 1 ∧ buzzerOn (handleTimeUpdate t) = true ∧
        (handleTimeUpdate t).paused = 1 ∧ 5 < (handleTimeUpdate t).buzzer_time)) := by
  refine ⟨handleTimeUpdate_retires s, handleTimeUpdate_keeps s, fun hset => ⟨fun hc => ?_,
    handleTimeUpdate_retires s⟩, ⟨overrun, reachable_overrun, by decide, by decide⟩⟩
  by_contra h5
  obtain ⟨k1, k2, k3, k4⟩ := handleTimeUpdate_keeps s h5
  obtain ⟨c1, c2, c3, c4⟩ := hc
  rcases hset with h | h | h | h
  · exact k1 h c1
  · rw [k2 h] at c2
    exact absurd c2 (by decide)
  · exact k3 h c3
  · exact k4 h c4

/-- C20 at the overrun state, which is entered with `buzzer_time = 6`: the
call clears nothing and the alarm stays active. -/
theorem C20_retirement_by_equality_witness :
    overrun.buzzer_time = 6 ∧ overrun.buzzer_triggered = 1 ∧
    (handleTimeUpdate overrun).buzzer_triggered ≠ 0 ∧
    buzzerOn (handleTimeUpdate overrun) = true ∧
    (handleTimeUpdate overrun).paused ≠ 0 :=
  ⟨by decide, by decide,
    ((C20_retirement_by_equality overrun).2.1 (by decide)).1 (by decide),
    ((C20_retirement_by_equality overrun).2.1 (by decide)).2.1 (by decide),
    ((C20_retirement_by_equality overrun).2.1 (by decide)).2.2.1 (by decide)⟩

/-! ## The two copies of the carry and borrow code -/

/-- The seconds-increment block at a press edge and the increment branch of
the time update compute the same time from the same time. -/
theorem secondsInc_eq_countUp (PINB : Nat) (t u : State) (hp : readPin PINB PB6 = 0)
    (h0 : t.seconds_inc_pressed = 0) (hc : clock t = clock u) :
    clock (pollSecondsInc PINB t) = clock (countUp u) := by
  simp only [clock, Prod.mk.injEq] at hc
  obtain ⟨e1, e2, e3⟩ := hc
  simp only [pollSecondsInc, countUp, updateDisplayDigits, clock, hp, h0, and_self, if_true,
    e1, e2, e3]
  split_ifs <;> rfl

/-- The seconds-decrement block at a press edge and the countdown branch of
the time update compute the same time from the same time, unless that time is
00:00:00. -/
theorem secondsDec_eq_countDown (PINB : Nat) (t u : State) (hp : readPin PINB PB5 = 0)
    (h0 : t.seconds_dec_pressed = 0) (hc : clock t = clock u) (hnz : clock u ≠ (0, 0, 0)) :
    clock (pollSecondsDec PINB t) = clock (countDown u) := by
  simp only [clock, Prod.mk.injEq] at hc
  obtain ⟨e1, e2, e3⟩ := hc
  simp only [clock, ne_eq, Prod.mk.injEq] at hnz
  simp only [pollSecondsDec, countDown, updateDisplayDigits, clock, hp, h0, and_self, if_true,
    e1, e2, e3]
  split_ifs <;> first | rfl | (exfalso; omega)

/-- A call that reads only `b` pressed leaves the time that the block of `b`
leaves from a state with the time and the held flag of `b` of the entry
state. -/
theorem handleButtonPresses_pressOnly (b : Button) (s : State) :
    ∃ t, clock t = clock s ∧ b.held t = b.held s ∧
      clock (handleButtonPresses (pressOnly b) s) = clock (poll b (pressOnly b) t) := by
  have hside : ∀ bs : List Button, b ∉ bs →
      ∀ c, c ∈ bs → c = .toggle ∨ readPin (pressOnly b) c.pin ≠ 0 := by
    intro bs nb c hc
    refine Or.inr (fun h0 => nb ?_)
    rw [← (pressOnly_low b c).1 h0]
    exact hc
  have key : ∀ pre post : List Button, pollOrder = pre ++ b :: post → b ∉ pre → b ∉ post →
      ∃ t, clock t = clock s ∧ b.held t = b.held s ∧
        clock (handleButtonPresses (pressOnly b) s) = clock (poll b (pressOnly b) t) := by
    intro pre post hsplit n1 n2
    obtain ⟨c1, f1⟩ := pollAll_frame (pressOnly b) pre s (hside pre n1)
    obtain ⟨c3, -⟩ := pollAll_frame (pressOnly b) post
      (poll b (pressOnly b) (pollAll (pressOnly b) pre s)) (hside post n2)
    refine ⟨pollAll (pressOnly b) pre s, c1, f1 b n1, ?_⟩
    rw [handleButtonPresses_eq_pollAll, hsplit, pollAll_append, pollAll_cons]
    exact c3
  cases b
  · exact key [] [.hoursInc, .hoursDec, .minutesInc, .minutesDec, .secondsInc, .secondsDec]
      rfl (by decide) (by decide)
  · exact key [.toggle] [.hoursDec, .minutesInc, .minutesDec, .secondsInc, .secondsDec]
      rfl (by decide) (by decide)
  · exact key [.toggle, .hoursInc] [.minutesInc, .minutesDec, .secondsInc, .secondsDec]
      rfl (by decide) (by decide)
  · exact key [.toggle, .hoursInc, .hoursDec] [.minutesDec, .secondsInc, .secondsDec]
      rfl (by decide) (by decide)
  · exact key [.toggle, .hoursInc, .hoursDec, .minutesInc] [.secondsInc, .secondsDec]
      rfl (by decide) (by decide)
  · exact key [.toggle, .hoursInc, .hoursDec, .minutesInc, .minutesDec] [.secondsDec]
      rfl (by decide) (by decide)
  · exact key [.toggle, .hoursInc, .hoursDec, .minutesInc, .minutesDec, .secondsInc] []
      rfl (by decide) (by decide)

/-- A consumed tick of a running increment-mode stopwatch. -/
theorem handleTimeUpdate_countUp (s : State) (hf : s.timer1_interrupt_flag ≠ 0)
    (hp : s.paused = 0) (hm : s.stopwatch_mode = 0) :
    clock (handleTimeUpdate s) = clock (countUp s) := by
  simp only [handleTimeUpdate, retireAlarm, consumeTick, countUp, updateDisplayDigits, clock]
  split_ifs <;> simp_all

/-- A consumed tick of a running countdown. -/
theorem handleTimeUpdate_countDown (s : State) (hf : s.timer1_interrupt_flag ≠ 0)
    (hp : s.paused = 0) (hm : s.stopwatch_mode ≠ 0) (h5 : s.buzzer_time ≠ 5) :
    clock (handleTimeUpdate s) = clock (countDown s) := by
  simp only [handleTimeUpdate, retireAlarm, consumeTick, countDown, updateDisplayDigits, clock,
    h5, if_false]
  split_ifs <;> simp_all

/-! ## The effect of a press -/

/-- Blocks that read their line released change neither the view nor the held
flag of a button that is not among them. -/
theorem pollAll_released (PINB : Nat) (bs : List Button) (s : State)
    (h : ∀ c, c ∈ bs → readPin PINB c.pin ≠ 0) :
    view (pollAll PINB bs s) = view s ∧
    ∀ b, b ∉ bs → b.held (pollAll PINB bs s) = b.held s := by
  induction bs generalizing s with
  | nil => exact ⟨rfl, fun _ _ => rfl⟩
  | cons c cs ih =>
    rw [pollAll_cons]
    obtain ⟨i1, i2⟩ := ih (poll c PINB s) (fun d hd => h d (List.mem_cons_of_mem c hd))
    obtain ⟨hv, hf, -⟩ := poll_released c PINB s (h c (List.mem_cons_self c cs))
    refine ⟨i1.trans hv, fun b hb => ?_⟩
    have hb1 : b ≠ c := fun e => hb (e ▸ List.mem_cons_self c cs)
    have hb2 : b ∉ cs := fun e => hb (List.mem_cons_of_mem c e)
    rw [i2 b hb2, hf b hb1]

/-- A call that reads only `b` pressed leaves the view that the block of `b`
leaves from a state with the view and the held flag of `b` of the entry
state. -/
theorem handleButtonPresses_pressOnly_view (b : Button) (s : State) :
    ∃ t, view t = view s ∧ b.held t = b.held s ∧
      view (handleButtonPresses (pressOnly b) s) = view (poll b (pressOnly b) t) := by
  have hside : ∀ bs : List Button, b ∉ bs →
      ∀ c, c ∈ bs → readPin (pressOnly b) c.pin ≠ 0 := by
    intro bs nb c hc h0
    exact nb ((pressOnly_low b c).1 h0 ▸ hc)
  have key : ∀ pre post : List Button, pollOrder = pre ++ b :: post → b ∉ pre → b ∉ post →
      ∃ t, view t = view s ∧ b.held t = b.held s ∧
        view (handleButtonPresses (pressOnly b) s) = view (poll b (pressOnly b) t) := by
    intro pre post hsplit n1 n2
    obtain ⟨c1, f1⟩ := pollAll_released (pressOnly b) pre s (hside pre n1)
    obtain ⟨c3, -⟩ := pollAll_released (pressOnly b) post
      (poll b (pressOnly b) (pollAll (pressOnly b) pre s)) (hside post n2)
    refine ⟨pollAll (pressOnly b) pre s, c1, f1 b n1, ?_⟩
    rw [handleButtonPresses_eq_pollAll, hsplit, pollAll_append, pollAll_cons]
    exact c3
  cases b
  · exact key [] [.hoursInc, .hoursDec, .minutesInc, .minutesDec, .secondsInc, .secondsDec]
      rfl (by decide) (by decide)
  · exact key [.toggle] [.hoursDec, .minutesInc, .minutesDec, .secondsInc, .secondsDec]
      rfl (by decide) (by decide)
  · exact key [.toggle, .hoursInc] [.minutesInc, .minutesDec, .secondsInc, .secondsDec]
      rfl (by decide) (by decide)
  · exact key [.toggle, .hoursInc, .hoursDec] [.minutesDec, .secondsInc, .secondsDec]
      rfl (by decide) (by decide)
  · exact key [.toggle, .hoursInc, .hoursDec, .minutesInc] [.secondsInc, .secondsDec]
      rfl (by decide) (by decide)
  · exact key [.toggle, .hoursInc, .hoursDec, .minutesInc, .minutesDec] [.secondsDec]
      rfl (by decide) (by decide)
  · exact key [.toggle, .hoursInc, .hoursDec, .minutesInc, .minutesDec, .secondsInc] []
      rfl (by decide) (by decide)

/-- The block of the mode button at a press edge flips the mode and leaves the
time and the digits. -/
theorem pollToggle_edge_effect (PINB : Nat) (t : State) (h : readPin PINB PB7 = 0)
    (hh : t.button_toggle_pressed = 0) :
    clock (pollToggle PINB t) = clock t ∧
    (pollToggle PINB t).stopwatch_mode = (if t.stopwatch_mode = 0 then 1 else 0) ∧
    (pollToggle PINB t).display_digits = t.display_digits := by
  simp [pollToggle, h, hh, clock]

/-- The block of an adjustment button at a press edge, on an in-range time,
moves the time of day by `delta` seconds modulo a day, keeps it in range,
keeps the mode and re-derives the digits. -/
theorem poll_edge_effect (b : Button) (hb : b ≠ .toggle) (PINB : Nat) (t : State)
    (h : readPin PINB b.pin = 0) (hh : b.held t = 0) (hr : inRange t) :
    inRange (poll b PINB t) ∧
    total (poll b PINB t) = (total t + b.delta) % 86400 ∧
    (poll b PINB t).stopwatch_mode = t.stopwatch_mode ∧
    digitsFresh (poll b PINB t) := by
  obtain ⟨r1, r2, r3⟩ := hr
  cases b <;> first | exact absurd rfl hb | skip
  all_goals
    simp only [Button.held, Button.pin] at h hh
    simp only [poll, pollHoursInc, pollHoursDec, pollMinutesInc, pollMinutesDec, pollSecondsInc,
      pollSecondsDec, h, hh, and_self, if_true, Button.delta]
    refine ⟨?_, ?_, ?_, digitsFresh_updateDisplayDigits _⟩ <;>
      simp only [inRange, total, updateDisplayDigits, incr8] <;>
      (try split_ifs) <;> (try simp_all) <;> omega

/-- Further polls of a held button keep its held flag at 1. -/
theorem polls_held_flag (b : Button) (m : Nat) (s : State) (hh : b.held s = 1) :
    b.held (polls (pressOnly b) m s) = 1 := by
  induction m generalizing s with
  | zero => exact hh
  | succ k ih =>
    have hf := (pollAll_held b pollOrder s hh).2
    rw [← handleButtonPresses_eq_pollAll] at hf
    simp only [polls]
    exact ih _ hf

/-- C6: from a state in which the held flag of a polled button is 0, any
number `n ≥ 1` of consecutive `handleButtonPresses` calls that read that
button pressed and every other line released leave the same hours, minutes,
seconds, mode and display digits as a single such call, with the held flag
set, and what they leave is the effect of the button applied once: the mode
button flips the mode and leaves the time and the digits; an adjustment
button moves an in-range time of day by its step (1, 60 or 3600 seconds up or
down, modulo a day), keeps the mode and re-derives the digits. -/
theorem C6_press_acts_once (b : Button) (s : State) (n : Nat)
    (hh : b.held s = 0) (hn : 1 ≤ n) :
    view (polls (pressOnly b) n s) = view (handleButtonPresses (pressOnly b) s) ∧
    b.held (polls (pressOnly b) n s) = 1 ∧
    (b = .toggle →
      clock (polls (pressOnly b) n s) = clock s ∧
      (polls (pressOnly b) n s).stopwatch_mode = (if s.stopwatch_mode = 0 then 1 else 0) ∧
      (polls (pressOnly b) n s).display_digits = s.display_digits) ∧
    (b ≠ .toggle → inRange s →
      inRange (polls (pressOnly b) n s) ∧
      total (polls (pressOnly b) n s) = (total s + b.delta) % 86400 ∧
      (polls (pressOnly b) n s).stopwatch_mode = s.stopwatch_mode ∧
      digitsFresh (polls (pressOnly b) n s)) := by
  obtain ⟨m, rfl⟩ : ∃ m, n = m + 1 := ⟨n - 1, by omega⟩
  have hf : b.held (handleButtonPresses (pressOnly b) s) = 1 := by
    rw [handleButtonPresses_eq_pollAll]
    exact pollAll_edge b pollOrder s hh (mem_pollOrder b)
  have hv : view (polls (pressOnly b) (m + 1) s)
      = view (handleButtonPresses (pressOnly b) s) := by
    simp only [polls]
    exact polls_held b m _ hf
  have hflag : b.held (polls (pressOnly b) (m + 1) s) = 1 := by
    simp only [polls]
    exact polls_held_flag b m _ hf
  obtain ⟨t, vt, ft, e⟩ := handleButtonPresses_pressOnly_view b s
  have hvp := hv.trans e
  simp only [view, Prod.mk.injEq] at vt hvp
  obtain ⟨t1, t2, t3, t4, t5⟩ := vt
  obtain ⟨p1, p2, p3, p4, p5⟩ := hvp
  refine ⟨hv, hflag, fun hb => ?_, fun hb hr => ?_⟩
  · subst hb
    have eff : clock (poll .toggle (pressOnly .toggle) t) = clock t ∧
        (poll .toggle (pressOnly .toggle) t).stopwatch_mode
          = (if t.stopwatch_mode = 0 then 1 else 0) ∧
        (poll .toggle (pressOnly .toggle) t).display_digits = t.display_digits :=
      pollToggle_edge_effect (pressOnly .toggle) t (by decide) (ft.trans hh)
    simp only [clock, Prod.mk.injEq] at eff ⊢
    obtain ⟨⟨a1, a2, a3⟩, a4, a5⟩ := eff
    rw [p1, p2, p3, p4, p5, a1, a2, a3, a4, a5, t1, t2, t3, t4, t5]
    exact ⟨⟨rfl, rfl, rfl⟩, rfl, rfl⟩
  · have hrt : inRange t := by
      unfold inRange
      rw [t1, t2, t3]
      exact hr
    obtain ⟨e1, e2, e3, e4⟩ := poll_edge_effect b hb (pressOnly b) t
      ((pressOnly_low b b).2 rfl) (ft.trans hh) hrt
    unfold inRange at e1 ⊢
    unfold total at e2 ⊢
    unfold digitsFresh at e4 ⊢
    rw [p1, p2, p3, p4, p5]
    refine ⟨e1, ?_, ?_, e4⟩
    · rw [e2, t1, t2, t3]
    · rw [e3, t4]

/-- C6 for 1000 polls of the held seconds-increment button from the initial
state: the time of day is 1 second, not 0 and not 1000. -/
theorem C6_press_acts_once_witness :
    view (polls (pressOnly Button.secondsInc) 1000 initialState)
      = view (handleButtonPresses (pressOnly Button.secondsInc) initialState) ∧
    total initialState = 0 ∧
    total (polls (pressOnly Button.secondsInc) 1000 initialState) = (0 + 1) % 86400 ∧
    digitsFresh (polls (pressOnly Button.secondsInc) 1000 initialState) := by
  have h := C6_press_acts_once Button.secondsInc initialState 1000 (by decide) (by decide)
  have h2 := h.2.2.2 (by decide) (by decide)
  exact ⟨h.1, by decide, h2.2.1, h2.2.2.2⟩

/-! ## Ticks of a running countdown -/

/-- The compare-match handler leaves the time, the mode and `paused`, and
makes a tick pending. -/
theorem TIMER1_COMPA_vect_frame (s : State) :
    (TIMER1_COMPA_vect s).hours = s.hours ∧ (TIMER1_COMPA_vect s).minutes = s.minutes ∧
    (TIMER1_COMPA_vect s).seconds = s.seconds ∧
    (TIMER1_COMPA_vect s).stopwatch_mode = s.stopwatch_mode ∧
    (TIMER1_COMPA_vect s).paused = s.paused ∧
    (TIMER1_COMPA_vect s).buzzer_triggered = s.buzzer_triggered ∧
    (TIMER1_COMPA_vect s).timer1_interrupt_flag ≠ 0 := by
  simp only [TIMER1_COMPA_vect]
  split_ifs <;> simp

/-- Ticks of a running countdown, each consumed by a call that is entered with
`buzzer_time ≠ 5`. -/
theorem countdown_ticks_guarded (n : Nat) (s : State) (hh : s.hours < 24)
    (hm : s.minutes < 60) (hs : s.seconds < 60) (hn : n ≤ total s)
    (hmode : s.stopwatch_mode ≠ 0) (hp : s.paused = 0)
    (hg : ∀ k, k < n → (TIMER1_COMPA_vect (ticks k s)).buzzer_time ≠ 5) :
    total (ticks n s) = total s - n := by
  induction n generalizing s with
  | zero => rfl
  | succ k ih =>
    obtain ⟨f1, f2, f3, f4, f5, -, f7⟩ := TIMER1_COMPA_vect_frame s
    have et : total (TIMER1_COMPA_vect s) = total s := by simp only [total, f1, f2, f3]
    obtain ⟨⟨r1, r2, r3⟩, e, -, e1, -, e3, -⟩ :=
      countdown_step (TIMER1_COMPA_vect s) (by rw [f1]; exact hh) (by rw [f2]; exact hm)
        (by rw [f3]; exact hs) (by rw [et]; omega) (by rw [f4]; exact hmode)
        (by rw [f5]; exact hp) (hg 0 (by omega)) f7
    simp only [ticks]
    rw [ih (tick s) r1 r2 r3 (by simp only [tick]; rw [e, et]; omega)
      (by simp only [tick]; rw [e3, f4]; exact hmode)
      (by simp only [tick]; rw [e1, f5]; exact hp)
      (fun j hj => hg (j + 1) (by omega))]
    simp only [tick]
    rw [e, et]
    omega

/-- With no alarm flagged, ticks change neither `buzzer_triggered` nor
`buzzer_time` of a running countdown above zero. -/
theorem countdown_ticks_no_alarm (n : Nat) (s : State) (hh : s.hours < 24)
    (hm : s.minutes < 60) (hs : s.seconds < 60) (hn : n ≤ total s)
    (hmode : s.stopwatch_mode ≠ 0) (hp : s.paused = 0) (hbt : s.buzzer_time ≠ 5)
    (hb : s.buzzer_triggered = 0) :
    ∀ k, k < n → (TIMER1_COMPA_vect (ticks k s)).buzzer_time ≠ 5 := by
  induction n generalizing s with
  | zero => intro k hk; omega
  | succ m ih =>
    have eisr : TIMER1_COMPA_vect s = { s with timer1_interrupt_flag := 1 } := by
      simp [TIMER1_COMPA_vect, hb]
    have hT : 0 < total (TIMER1_COMPA_vect s) := by
      rw [eisr]; simp only [total] at hn ⊢; omega
    obtain ⟨⟨r1, r2, r3⟩, e, -, e1, e2, e3, e4⟩ :=
      countdown_step (TIMER1_COMPA_vect s) (by rw [eisr]; exact hh) (by rw [eisr]; exact hm)
        (by rw [eisr]; exact hs) hT (by rw [eisr]; exact hmode) (by rw [eisr]; exact hp)
        (by rw [eisr]; exact hbt) (by rw [eisr]; simp)
    have et : total (TIMER1_COMPA_vect s) = total s := by rw [eisr]; rfl
    intro k hk
    cases k with
    | zero => simp only [ticks]; rw [eisr]; exact hbt
    | succ j =>
      simp only [ticks]
      exact ih (tick s) r1 r2 r3 (by simp only [tick]; rw [e, et]; omega)
        (by simp only [tick]; rw [e3, eisr]; exact hmode)
        (by simp only [tick]; rw [e1, eisr]; exact hp)
        (by simp only [tick]; rw [e4, eisr]; exact hbt)
        (by simp only [tick]; rw [e2, eisr]; exact hb) j (by omega)

/-- C11, as stated, fails in its n-step part: in a reachable state (the alarm
entered, minutes set to 1, resume, compare match) every hypothesis of the
claim holds with `T = 60`, and 5 ticks give the total 59, not 55, because the
compare-match handler raises `buzzer_time` to 5 and the retiring call switches
to increment mode. -/
theorem C11_counterexample :
    Reachable resumedPending ∧
    (resumedPending.hours < 24 ∧ resumedPending.minutes < 60 ∧ resumedPending.seconds < 60) ∧
    total resumedPending = 60 ∧ resumedPending.stopwatch_mode = 1 ∧
    resumedPending.paused = 0 ∧ resumedPending.buzzer_time ≠ 5 ∧
    resumedPending.timer1_interrupt_flag = 1 ∧
    total (ticks 5 resumedPending) = 59 ∧
    ¬ (total (ticks 5 resumedPending) = total resumedPending - 5) := by
  refine ⟨?_, by decide, by decide, by decide, by decide, by decide, by decide, by decide,
    by decide⟩
  exact Reachable.timer1 (Reachable.int2 (Reachable.buttons _ (Reachable.buttons _
    reachable_alarmEntered)))

/-- C11, amended: in countdown mode, running, with `buzzer_time ≠ 5`, a tick
pending and an in-range time of day `T > 0`, `handleTimeUpdate` yields an
in-range time with total `T - 1`, YELLOW on and RED off, and leaves `paused`
and `buzzer_triggered` unchanged; `n ≤ T` ticks (compare-match handler, then
`handleTimeUpdate`), each consumed by a call entered with `buzzer_time ≠ 5`,
yield total `T - n`, and every call is so entered when `buzzer_triggered = 0`. -/
theorem C11_countdown_retreats (s : State) (hh : s.hours < 24) (hm : s.minutes < 60)
    (hs : s.seconds < 60) (hT : 0 < total s) (hmode : s.stopwatch_mode ≠ 0)
    (hp : s.paused = 0) (hbt : s.buzzer_time ≠ 5) (hf : s.timer1_interrupt_flag ≠ 0) :
    ((handleTimeUpdate s).hours < 24 ∧ (handleTimeUpdate s).minutes < 60 ∧
      (handleTimeUpdate s).seconds < 60) ∧
    total (handleTimeUpdate s) = total s - 1 ∧
    (yellowOn (handleTimeUpdate s) = true ∧ redOn (handleTimeUpdate s) = false) ∧
    (handleTimeUpdate s).paused = s.paused ∧
    (handleTimeUpdate s).buzzer_triggered = s.buzzer_triggered ∧
    (∀ n, n ≤ total s → (∀ k, k < n → (TIMER1_COMPA_vect (ticks k s)).buzzer_time ≠ 5) →
      total (ticks n s) = total s - n) ∧
    (s.buzzer_triggered = 0 → ∀ n, n ≤ total s → total (ticks n s) = total s - n) := by
  obtain ⟨a, b, c, d, e, -, -⟩ := countdown_step s hh hm hs hT hmode hp hbt hf
  exact ⟨a, b, c, d, e, fun n hn hg => countdown_ticks_guarded n s hh hm hs hn hmode hp hg,
    fun hb n hn => countdown_ticks_guarded n s hh hm hs hn hmode hp
      (countdown_ticks_no_alarm n s hh hm hs hn hmode hp hbt hb)⟩

/-- C11, amended, at 00:01:00 in countdown mode with a tick pending and no
alarm flagged: one consumed tick gives 00:00:59, and 60 ticks give 00:00:00. -/
theorem C11_countdown_retreats_witness :
    total countdownAt60 = 60 ∧
    clock (handleTimeUpdate countdownAt60) = (0, 0, 59) ∧
    total (handleTimeUpdate countdownAt60) = total countdownAt60 - 1 ∧
    (yellowOn (handleTimeUpdate countdownAt60) = true ∧
      redOn (handleTimeUpdate countdownAt60) = false) ∧
    total (ticks 60 countdownAt60) = total countdownAt60 - 60 := by
  have h := C11_countdown_retreats countdownAt60 (by decide) (by decide) (by decide)
    (by decide) (by decide) (by decide) (by decide) (by decide)
  exact ⟨by decide, by decide, h.2.1, h.2.2.1, h.2.2.2.2.2.2 (by decide) 60 (by decide)⟩

/-! ## The order of conflicting presses and the retiring tick -/

/-- The increment block followed by the decrement block of one field, both at
a press edge, leave a time that depends only on the time before. -/
theorem pair_congr (inc dec : Button) (hpair : (inc, dec) ∈ adjustPairs) (PINB : Nat)
    (t s : State) (hi : readPin PINB inc.pin = 0) (hd : readPin PINB dec.pin = 0)
    (hc : clock t = clock s) (ti : inc.held t = 0) (td : dec.held t = 0)
    (si : inc.held s = 0) (sd : dec.held s = 0) :
    clock (poll dec PINB (poll inc PINB t)) = clock (poll dec PINB (poll inc PINB s)) ∧
    inc.held (poll dec PINB (poll inc PINB t)) = 1 ∧
    dec.held (poll dec PINB (poll inc PINB t)) = 1 := by
  simp only [clock, Prod.mk.injEq] at hc
  obtain ⟨e1, e2, e3⟩ := hc
  simp only [adjustPairs, List.mem_cons, Prod.mk.injEq, List.mem_singleton, List.mem_nil_iff,
    or_false] at hpair
  rcases hpair with ⟨rfl, rfl⟩ | ⟨rfl, rfl⟩ | ⟨rfl, rfl⟩ <;>
    simp only [Button.pin, Button.held] at hi hd ti td si sd <;>
    simp only [poll, pollHoursInc, pollHoursDec, pollMinutesInc, pollMinutesDec, pollSecondsInc,
      pollSecondsDec, updateDisplayDigits, incr8, clock, Button.held, hi, hd, ti, td, si, sd,
      e1, e2, e3, and_self, if_true] <;>
    split_ifs <;> simp_all

/-- The pair of blocks of one field between blocks that do not touch the
time. -/
theorem pair_in_context (pre post : List Button) (inc dec : Button)
    (hpair : (inc, dec) ∈ adjustPairs) (PINB : Nat) (s : State)
    (hi : readPin PINB inc.pin = 0) (hd : readPin PINB dec.pin = 0)
    (hpre : ∀ c, c ∈ pre → c = .toggle ∨ readPin PINB c.pin ≠ 0)
    (hpost : ∀ c, c ∈ post → c = .toggle ∨ readPin PINB c.pin ≠ 0)
    (n1 : inc ∉ pre) (n2 : dec ∉ pre) (n3 : inc ∉ post) (n4 : dec ∉ post)
    (h0i : inc.held s = 0) (h0d : dec.held s = 0) :
    clock (pollAll PINB (pre ++ inc :: dec :: post) s)
      = clock (poll dec PINB (poll inc PINB s)) ∧
    inc.held (pollAll PINB (pre ++ inc :: dec :: post) s) = 1 ∧
    dec.held (pollAll PINB (pre ++ inc :: dec :: post) s) = 1 := by
  obtain ⟨c1, f1⟩ := pollAll_frame PINB pre s hpre
  obtain ⟨c2, g1, g2⟩ := pair_congr inc dec hpair PINB (pollAll PINB pre s) s hi hd c1
    (by rw [f1 inc n1]; exact h0i) (by rw [f1 dec n2]; exact h0d) h0i h0d
  obtain ⟨c3, f3⟩ := pollAll_frame PINB post
    (poll dec PINB (poll inc PINB (pollAll PINB pre s))) hpost
  rw [pollAll_append, pollAll_cons, pollAll_cons]
  exact ⟨c3.trans c2, by rw [f3 inc n3]; exact g1, by rw [f3 dec n4]; exact g2⟩

/-- C17, as stated, fails: in the initial state the time is in range and both
held flags of the hours field are clear; a call that reads the hours
increment and decrement buttons pressed, and the minutes-increment button
pressed as well (`PINB = 236`), leaves 00:01:00, not the time before the
call. -/
theorem C17_counterexample :
    inRange initialState ∧
    (initialState.hours_inc_pressed = 0 ∧ initialState.hours_dec_pressed = 0) ∧
    (readPin 236 PB1 = 0 ∧ readPin 236 PB0 = 0) ∧
    clock initialState = (0, 0, 0) ∧
    clock (handleButtonPresses 236 initialState) = (0, 1, 0) ∧
    ¬ (clock (handleButtonPresses 236 initialState) = clock initialState) := by
  decide

/-- C17, amended: with both held flags of a field clear, one
`handleButtonPresses` call that reads the increment and the decrement button
of that field pressed and the other four adjustment buttons released leaves
the time that the decrement block leaves after the increment block, and
records both presses in the held flags; from an in-range time that is the
time before the call. -/
theorem C17_increment_before_decrement (inc dec : Button)
    (hpair : (inc, dec) ∈ adjustPairs) (PINB : Nat) (s : State)
    (hi : readPin PINB inc.pin = 0) (hd : readPin PINB dec.pin = 0)
    (ho : ∀ c : Button, c ≠ .toggle → c ≠ inc → c ≠ dec → readPin PINB c.pin ≠ 0)
    (h0i : inc.held s = 0) (h0d : dec.held s = 0) :
    clock (handleButtonPresses PINB s) = clock (poll dec PINB (poll inc PINB s)) ∧
    inc.held (handleButtonPresses PINB s) = 1 ∧
    dec.held (handleButtonPresses PINB s) = 1 ∧
    (inRange s → clock (handleButtonPresses PINB s) = clock s) := by
  have hside : ∀ bs : List Button, inc ∉ bs → dec ∉ bs →
      ∀ c, c ∈ bs → c = .toggle ∨ readPin PINB c.pin ≠ 0 := by
    intro bs ni nd c hc
    by_cases ht : c = .toggle
    · exact Or.inl ht
    · exact Or.inr (ho c ht (fun e => ni (e ▸ hc)) (fun e => nd (e ▸ hc)))
  have key : clock (handleButtonPresses PINB s) = clock (poll dec PINB (poll inc PINB s)) ∧
      inc.held (handleButtonPresses PINB s) = 1 ∧
      dec.held (handleButtonPresses PINB s) = 1 := by
    have hp := hpair
    simp only [adjustPairs, List.mem_cons, Prod.mk.injEq, List.mem_singleton,
      List.mem_nil_iff, or_false] at hp
    rw [handleButtonPresses_eq_pollAll]
    rcases hp with ⟨rfl, rfl⟩ | ⟨rfl, rfl⟩ | ⟨rfl, rfl⟩
    · exact pair_in_context [.toggle] [.minutesInc, .minutesDec, .secondsInc, .secondsDec]
        .hoursInc .hoursDec hpair PINB s hi hd
        (hside _ (by decide) (by decide)) (hside _ (by decide) (by decide))
        (by decide) (by decide) (by decide) (by decide) h0i h0d
    · exact pair_in_context [.toggle, .hoursInc, .hoursDec] [.secondsInc, .secondsDec]
        .minutesInc .minutesDec hpair PINB s hi hd
        (hside _ (by decide) (by decide)) (hside _ (by decide) (by decide))
        (by decide) (by decide) (by decide) (by decide) h0i h0d
    · exact pair_in_context [.toggle, .hoursInc, .hoursDec, .minutesInc, .minutesDec] []
        .secondsInc .secondsDec hpair PINB s hi hd
        (hside _ (by decide) (by decide)) (hside _ (by decide) (by decide))
        (by decide) (by decide) (by decide) (by decide) h0i h0d
  exact ⟨key.1, key.2.1, key.2.2, fun hr =>
    key.1.trans (pair_roundtrip inc dec hpair PINB s hr hi hd h0i h0d).1⟩

/-- C17, amended, at 23:59:59 with the seconds increment and decrement
buttons both pressed: the increment carries to 00:00:00 and the decrement
borrows back.  At the probe state with `minutes = 200` the call with the
minutes pair pressed gives the increment-then-decrement time 00:59:00, which
is not the decrement-then-increment time 01:00:00. -/
theorem C17_increment_before_decrement_witness :
    (clock lastSecond = (23, 59, 59) ∧
      clock (poll .secondsInc (0xFF - 2 ^ PB6 - 2 ^ PB5) lastSecond) = (0, 0, 0) ∧
      clock (handleButtonPresses (0xFF - 2 ^ PB6 - 2 ^ PB5) lastSecond) = clock lastSecond) ∧
    (clock (handleButtonPresses (0xFF - 2 ^ PB4 - 2 ^ PB3) orderProbe)
        = clock (poll .minutesDec (0xFF - 2 ^ PB4 - 2 ^ PB3)
            (poll .minutesInc (0xFF - 2 ^ PB4 - 2 ^ PB3) orderProbe)) ∧
      clock (poll .minutesDec (0xFF - 2 ^ PB4 - 2 ^ PB3)
        (poll .minutesInc (0xFF - 2 ^ PB4 - 2 ^ PB3) orderProbe)) = (0, 59, 0) ∧
      clock (poll .minutesInc (0xFF - 2 ^ PB4 - 2 ^ PB3)
        (poll .minutesDec (0xFF - 2 ^ PB4 - 2 ^ PB3) orderProbe)) = (1, 0, 0)) :=
  ⟨⟨by decide, by decide,
    (C17_increment_before_decrement .secondsInc .secondsDec (by decide)
      (0xFF - 2 ^ PB6 - 2 ^ PB5) lastSecond (by decide) (by decide)
      (fun c => by cases c <;> decide) (by decide) (by decide)).2.2.2 (by decide)⟩,
   ⟨(C17_increment_before_decrement .minutesInc .minutesDec (by decide)
      (0xFF - 2 ^ PB4 - 2 ^ PB3) orderProbe (by decide) (by decide)
      (fun c => by cases c <;> decide) (by decide) (by decide)).1,
    by decide, by decide⟩⟩

theorem reachable_resumedAlarm : Reachable resumedAlarm :=
  Reachable.int2 (Reachable.buttons _ (Reachable.buttons _ reachable_alarmEntered))

/-- C19, as stated, fails in its countdown part: in a reachable state
(countdown mode, running, a tick pending, the in-range time 00:00:56, the
seconds-decrement button not held) with `buzzer_time = 5`, the call retires
the alarm and counts up to 00:00:57, while one press of the seconds-decrement
button gives 00:00:55. -/
theorem C19_counterexample :
    Reachable resumedAtFive ∧
    (inRange resumedAtFive ∧ clock resumedAtFive = (0, 0, 56)) ∧
    (resumedAtFive.stopwatch_mode = 1 ∧ resumedAtFive.paused = 0 ∧
      resumedAtFive.timer1_interrupt_flag = 1 ∧ resumedAtFive.seconds_dec_pressed = 0) ∧
    resumedAtFive.buzzer_time = 5 ∧
    clock (handleTimeUpdate resumedAtFive) = (0, 0, 57) ∧
    clock (handleButtonPresses (pressOnly .secondsDec) resumedAtFive) = (0, 0, 55) ∧
    ¬ (clock (handleTimeUpdate resumedAtFive)
        = clock (handleButtonPresses (pressOnly .secondsDec) resumedAtFive)) := by
  refine ⟨?_, by decide, by decide, by decide, by decide, by decide, by decide⟩
  exact Reachable.timer1 (reachable_ticks 4 _ reachable_resumedAlarm)

/-- C19, amended: for a running stopwatch with a tick pending, one consumed
tick in increment mode leaves the time that one press of the
seconds-increment button leaves; one consumed tick in countdown mode, in a
call entered with `buzzer_time ≠ 5`, leaves the time that one press of the
seconds-decrement button leaves, unless the time is 00:00:00, where the tick
leaves 00:00:00 and the button wraps to 23:59:59. -/
theorem C19_carry_borrow_agree (s : State) (hf : s.timer1_interrupt_flag ≠ 0)
    (hp : s.paused = 0) :
    (s.stopwatch_mode = 0 → s.seconds_inc_pressed = 0 →
      clock (handleTimeUpdate s) = clock (handleButtonPresses (pressOnly .secondsInc) s)) ∧
    (s.stopwatch_mode ≠ 0 → s.buzzer_time ≠ 5 → s.seconds_dec_pressed = 0 →
      clock s ≠ (0, 0, 0) →
      clock (handleTimeUpdate s) = clock (handleButtonPresses (pressOnly .secondsDec) s)) ∧
    (s.stopwatch_mode ≠ 0 → s.buzzer_time ≠ 5 → s.seconds_dec_pressed = 0 →
      clock s = (0, 0, 0) →
      clock (handleTimeUpdate s) = (0, 0, 0) ∧
      clock (handleButtonPresses (pressOnly .secondsDec) s) = (23, 59, 59)) := by
  refine ⟨fun hm h0 => ?_, fun hm h5 h0 hnz => ?_, fun hm h5 h0 hz => ?_⟩
  · obtain ⟨t, c1, f1, e⟩ := handleButtonPresses_pressOnly .secondsInc s
    rw [e, handleTimeUpdate_countUp s hf hp hm]
    exact (secondsInc_eq_countUp _ t s (by decide) (f1.trans h0) c1).symm
  · obtain ⟨t, c1, f1, e⟩ := handleButtonPresses_pressOnly .secondsDec s
    rw [e, handleTimeUpdate_countDown s hf hp hm h5]
    exact (secondsDec_eq_countDown _ t s (by decide) (f1.trans h0) c1 hnz).symm
  · obtain ⟨t, c1, f1, e⟩ := handleButtonPresses_pressOnly .secondsDec s
    rw [e, handleTimeUpdate_countDown s hf hp hm h5]
    have f2 : t.seconds_dec_pressed = 0 := f1.trans h0
    have hp5 : readPin (pressOnly .secondsDec) PB5 = 0 := by decide
    rw [hz] at c1
    simp only [clock, Prod.mk.injEq] at hz c1
    obtain ⟨z1, z2, z3⟩ := hz
    obtain ⟨y1, y2, y3⟩ := c1
    constructor
    · simp [countDown, clock, z1, z2, z3]
    · simp [poll, pollSecondsDec, updateDisplayDigits, clock, hp5, f2, y1, y2, y3]

/-- C19, amended, at 01:01:01 in increment mode, at 00:01:00 in countdown
mode, where tick and button both give 00:00:59, and at 00:00:00 in countdown
mode, where they differ. -/
theorem C19_carry_borrow_agree_witness :
    (clock (handleTimeUpdate adjustedPending) = (1, 1, 2) ∧
      clock (handleTimeUpdate adjustedPending)
        = clock (handleButtonPresses (pressOnly .secondsInc) adjustedPending)) ∧
    (clock (handleTimeUpdate countdownAt60) = (0, 0, 59) ∧
      clock (handleTimeUpdate countdownAt60)
        = clock (handleButtonPresses (pressOnly .secondsDec) countdownAt60)) ∧
    (clock (handleTimeUpdate countdownAt0) = (0, 0, 0) ∧
      clock (handleButtonPresses (pressOnly .secondsDec) countdownAt0) = (23, 59, 59)) :=
  ⟨⟨by decide,
    (C19_carry_borrow_agree adjustedPending (by decide) (by decide)).1 (by decide)
      (by decide)⟩,
   ⟨by decide,
    (C19_carry_borrow_agree countdownAt60 (by decide) (by decide)).2.1 (by decide)
      (by decide) (by decide) (by decide)⟩,
   (C19_carry_borrow_agree countdownAt0 (by decide) (by decide)).2.2 (by decide) (by decide)
      (by decide) (by decide)⟩

end StopWatch
